import Mathlib

/-!
# NvIFREncoder.cpp: capture loop and per-player encode workers

A shallow embedding of `samples/DirectxIFR/DXIFRShim/Common/NvIFREncoder.cpp`.

* Pointers to objects owned by the libraries are natural numbers, `0` being `NULL`.
  Pointers to objects whose fields this file reads or writes (`AVFrame`,
  `AVCodecContext`) are `Option`s of the fields it touches, `none` being `NULL`.
* Every call into FFmpeg, NvIFR or Win32 is an input: the value it returns is
  read from an oracle record, and the call is appended to the list of calls
  made, so that "was not called" and "was called with these arguments" can be
  stated.
* A function ends in one of three ways: it returns, it calls `exit`, or it has
  undefined behaviour (a null dereference, an index outside an array, a signed
  overflow, a division by zero).  The last is `Outcome.fault`.
* `int` and `int64_t` values are mathematical integers; an operation whose
  result leaves the range of its type is a fault, as C++ leaves it undefined.
-/

namespace CloudyNvCapture

/-! ## Constants -/

/-- The array size of every per-slot array: `#define MAX_PLAYERS 12`. -/
abbrev MAX_PLAYERS : Nat := 12

/-- The frame rate of `#define STREAM_FRAME_RATE 25`. -/
def STREAM_FRAME_RATE : Int := 25

/-- Largest `int`. -/
def INT_MAX : Int := 2147483647

/-- Smallest `int`. -/
def INT_MIN : Int := -2147483648

/-- Largest `int64_t`. -/
def INT64_MAX : Int := 9223372036854775807

/-- Smallest `int64_t`. -/
def INT64_MIN : Int := -9223372036854775808

/-- A pointer to a library object; `0` is `NULL`. -/
abbrev Ptr := Nat

/-- Enumerators and flags that the source takes from the FFmpeg, NvIFR and
Win32 headers.  Their values are not fixed here: every function takes them as
a parameter. -/
structure Consts where
  AV_PIX_FMT_YUV420P : Int
  AV_CODEC_ID_NONE : Int
  AV_CODEC_ID_MPEG1VIDEO : Int
  AV_CODEC_ID_MPEG2VIDEO : Int
  NVIFR_SUCCESS : Int
  deriving DecidableEq

/-! ## Calls into the libraries -/

/-- The keys passed to `av_dict_set`. -/
inductive DictKey where
  | re
  | listen
  | an
  deriving DecidableEq

/-- The thread entry points handed to `_beginthread`. -/
inductive ThreadProc where
  | EncoderThreadStartProc
  | FFMPEGThreadStartProc (slot : Nat)
  deriving DecidableEq

/-- One call into a library, with the arguments and results the model keeps. -/
inductive Call where
  | CreateEvent (result : Ptr)
  | beginthread (proc : ThreadProc) (result : Int)
  | SetEvent (h : Ptr)
  | WaitForSingleObject (h : Ptr)
  | CloseHandle (h : Ptr)
  | SetupNvIFR (ok : Bool)
  | CleanupNvIFR
  | NvIFRSetUpTargetBufferToSys (result : Int)
  | av_frame_make_writable (result : Int)
  | sws_getContext (result : Ptr)
  | sws_scale
  | avpicture_fill (width height : Int)
  | av_picture_crop (top_band left_band : Int)
  | avcodec_encode_video2 (result got_packet : Int)
  | av_packet_rescale_ts
  | av_interleaved_write_frame (fmt_ctx : Ptr) (result : Int)
  | avcodec_find_encoder (codec_id : Int) (result : Ptr)
  | avformat_new_stream (result : Ptr)
  | avcodec_alloc_context3 (result : Ptr)
  | avcodec_open2 (result : Int)
  | av_frame_alloc
  | av_frame_get_buffer (result : Int)
  | avcodec_parameters_from_context (result : Int)
  | avformat_alloc_output_context2 (result : Ptr)
  | av_dict_set (key : DictKey) (result : Int)
  | av_dump_format
  | avio_open2 (port : Int) (result : Int)
  | avformat_write_header (result : Int)
  | av_write_trailer (ctx : Ptr)
  | avio_closep
  | avformat_free_context (ctx : Ptr)
  deriving DecidableEq

/-- The calls that only the set-up block of `FFMPEGThreadProc` makes. -/
def Call.isSetup : Call → Bool
  | Call.avformat_alloc_output_context2 _ => true
  | Call.avcodec_find_encoder _ _ => true
  | Call.avformat_new_stream _ => true
  | Call.avcodec_alloc_context3 _ => true
  | Call.avcodec_open2 _ => true
  | Call.av_frame_get_buffer _ => true
  | Call.avcodec_parameters_from_context _ => true
  | Call.av_dict_set _ _ => true
  | Call.av_dump_format => true
  | Call.avio_open2 _ _ => true
  | Call.avformat_write_header _ => true
  | _ => false

/-! ## Outcomes -/

/-- How a function ends. -/
inductive Outcome (α : Type) where
  | ret (a : α)
  | exit (status : Int)
  | fault

/-- A run of a function: the library calls it made, in order, and how it ended. -/
structure Run (α : Type) where
  calls : List Call
  out : Outcome α

namespace Run

/-- Return `a` without any call. -/
def pure {α : Type} (a : α) : Run α := ⟨[], Outcome.ret a⟩

/-- Make one library call. -/
def call (c : Call) : Run Unit := ⟨[c], Outcome.ret ()⟩

/-- The program calls `exit(status)`. -/
def exit {α : Type} (status : Int) : Run α := ⟨[], Outcome.exit status⟩

/-- Undefined behaviour. -/
def fault {α : Type} : Run α := ⟨[], Outcome.fault⟩

/-- Sequencing: `f` runs only when `r` returned. -/
def bind {α β : Type} (r : Run α) (f : α → Run β) : Run β :=
  match r.out with
  | Outcome.ret a => ⟨r.calls ++ (f a).calls, (f a).out⟩
  | Outcome.exit n => ⟨r.calls, Outcome.exit n⟩
  | Outcome.fault => ⟨r.calls, Outcome.fault⟩

end Run

/-- An `int` result: a fault when it is outside the range of `int`. -/
def checkInt (x : Int) : Run Int :=
  if INT_MIN ≤ x ∧ x ≤ INT_MAX then Run.pure x else Run.fault

/-- An `int64_t` result: a fault when it is outside the range of `int64_t`. -/
def checkInt64 (x : Int) : Run Int :=
  if INT64_MIN ≤ x ∧ x ≤ INT64_MAX then Run.pure x else Run.fault

/-- The C++ `a % b` on `int`: truncated remainder, a fault when `b` is zero or
the quotient overflows. -/
def cMod (a b : Int) : Run Int :=
  if b = 0 ∨ (a = INT_MIN ∧ b = -1) then Run.fault else Run.pure (Int.tmod a b)

/-! ## Data model -/

/-- The fields of an `AVFrame` that the source writes. -/
structure AVFrame where
  pts : Int
  width : Int
  height : Int
  format : Int
  deriving DecidableEq

/-- The fields of an `AVCodecContext` that the source writes or reads. -/
structure AVCodecContext where
  codec_id : Int
  width : Int
  height : Int
  pix_fmt : Int
  deriving DecidableEq

/-- The `OutputStream` struct: a wrapper around a single output `AVStream`.
`next_pts` is the pts of the next frame that will be generated. -/
structure OutputStream where
  st : Ptr
  enc : Option AVCodecContext
  next_pts : Int
  samples_count : Int
  frame : Option AVFrame
  tmp_frame : Option AVFrame
  sws_ctx : Ptr
  swr_ctx : Ptr
  deriving DecidableEq

/-- What the library calls of one `write_video_frame` return. -/
structure FrameOracle where
  av_frame_make_writable : Int
  sws_getContext : Ptr
  avcodec_encode_video2 : Int
  got_packet : Int
  av_interleaved_write_frame : Int
  deriving DecidableEq

/-! ## Video output -/

/-- The function `write_frame`: rescale the packet timestamps to the stream
time base (which reads `st->time_base`) and hand the packet to the muxer. -/
def write_frame (o : FrameOracle) (fmt_ctx : Ptr) (st : Ptr) : Run Int :=
  if st = 0 then Run.fault else
  (Run.call Call.av_packet_rescale_ts).bind fun _ =>
  (Run.call (Call.av_interleaved_write_frame fmt_ctx o.av_interleaved_write_frame)).bind fun _ =>
  Run.pure o.av_interleaved_write_frame

/-- The function `fill_yuv_image`: set the picture to the dimensions of the
whole captured buffer and crop it.  `av_picture_crop` takes
`(dst, src, pix_fmt, top_band, left_band)`, so the parameter called
`topRightX` is its top band and the one called `topRightY` its left band. -/
def fill_yuv_image (K : Consts) (bufferWidth bufferHeight : Int)
    (pict : Option AVFrame) (topRightX topRightY : Int) : Run AVFrame :=
  match pict with
  | none => Run.fault
  | some p =>
    let p1 : AVFrame :=
      { p with width := bufferWidth, height := bufferHeight, format := K.AV_PIX_FMT_YUV420P }
    (Run.call Call.av_frame_alloc).bind fun _ =>
    (Run.call (Call.avpicture_fill p1.width p1.height)).bind fun _ =>
    (Run.call (Call.av_picture_crop topRightX topRightY)).bind fun _ =>
    Run.pure p1

/-- The function `get_video_frame`. -/
def get_video_frame (K : Consts) (bufferWidth bufferHeight : Int) (o : FrameOracle)
    (ost : OutputStream) (topRightX topRightY : Int) : Run (OutputStream × Option AVFrame) :=
  (Run.call (Call.av_frame_make_writable o.av_frame_make_writable)).bind fun _ =>
  if o.av_frame_make_writable < 0 then Run.exit 1 else
  match ost.enc with
  | none => Run.fault
  | some c =>
    (if c.pix_fmt ≠ K.AV_PIX_FMT_YUV420P then
      (if ost.sws_ctx = 0 then
        (Run.call (Call.sws_getContext o.sws_getContext)).bind fun _ =>
        if o.sws_getContext = 0 then Run.exit 1
        else Run.pure { ost with sws_ctx := o.sws_getContext }
      else Run.pure ost).bind fun ost1 =>
      (fill_yuv_image K bufferWidth bufferHeight ost1.tmp_frame topRightX topRightY).bind fun t =>
      match ost1.frame with
      | none => Run.fault
      | some _ =>
        (Run.call Call.sws_scale).bind fun _ =>
        Run.pure { ost1 with tmp_frame := some t }
    else
      (fill_yuv_image K bufferWidth bufferHeight ost.frame topRightX topRightY).bind fun f =>
      Run.pure { ost with frame := some f }).bind fun ost2 =>
    match ost2.frame with
    | none => Run.fault
    | some f =>
      (checkInt64 (ost2.next_pts + 1)).bind fun next =>
      let f1 : AVFrame := { f with pts := ost2.next_pts }
      Run.pure ({ ost2 with frame := some f1, next_pts := next }, some f1)

/-- The function `write_video_frame`: encode one video frame and send it to
the muxer; "return 1 when encoding is finished, 0 otherwise". -/
def write_video_frame (K : Consts) (bufferWidth bufferHeight : Int) (o : FrameOracle)
    (oc : Ptr) (ost : OutputStream) (topRightX topRightY : Int) : Run (OutputStream × Int) :=
  (get_video_frame K bufferWidth bufferHeight o ost topRightX topRightY).bind fun r =>
  let ost1 := r.1
  let frame := r.2
  (Run.call (Call.avcodec_encode_video2 o.avcodec_encode_video2 o.got_packet)).bind fun _ =>
  if o.avcodec_encode_video2 < 0 then Run.exit 1 else
  (if o.got_packet ≠ 0 then write_frame o oc ost1.st else Run.pure 0).bind fun ret =>
  if ret < 0 then Run.exit 1 else
  Run.pure (ost1, if frame.isSome ∨ o.got_packet ≠ 0 then 0 else 1)

/-- Successive calls of `get_video_frame` on one stream, one per oracle; the
frames are collected in call order. -/
def get_video_frames (K : Consts) (bufferWidth bufferHeight : Int) (topRightX topRightY : Int) :
    List FrameOracle → OutputStream → Run (OutputStream × List (Option AVFrame))
  | [], ost => Run.pure (ost, [])
  | o :: os, ost =>
    (get_video_frame K bufferWidth bufferHeight o ost topRightX topRightY).bind fun r =>
    (get_video_frames K bufferWidth bufferHeight topRightX topRightY os r.1).bind fun rs =>
    Run.pure (rs.1, r.2 :: rs.2)

/-! ## Streams -/

/-- What the library calls of the set-up block of `FFMPEGThreadProc` return,
together with the two fields of library objects it reads
(`outCtxArray[i]->oformat` and `fmt[i]->video_codec`). -/
structure SetupOracle where
  alloc_output_context2_first : Ptr
  alloc_output_context2_second : Ptr
  oformat : Ptr
  video_codec : Int
  avcodec_find_encoder : Ptr
  avformat_new_stream : Ptr
  avcodec_alloc_context3 : Ptr
  av_dict_set_re : Int
  avcodec_open2 : Int
  frame_alloc : Option AVFrame
  frame_get_buffer : Int
  tmp_frame_alloc : Option AVFrame
  tmp_frame_get_buffer : Int
  avcodec_parameters_from_context : Int
  av_dict_set_listen : Int
  av_dict_set_an : Int
  avio_open2 : Int
  avformat_write_header : Int
  deriving DecidableEq

/-- The function `add_stream`: find the encoder, add the stream, allocate and
fill the encoding context.  It returns the stream and the codec found. -/
def add_stream (K : Consts) (o : SetupOracle) (splitWidth splitHeight : Int)
    (ost : OutputStream) (codec_id : Int) : Run (OutputStream × Ptr) :=
  (Run.call (Call.avcodec_find_encoder codec_id o.avcodec_find_encoder)).bind fun _ =>
  if o.avcodec_find_encoder = 0 then Run.exit 1 else
  (Run.call (Call.avformat_new_stream o.avformat_new_stream)).bind fun _ =>
  let ost1 : OutputStream := { ost with st := o.avformat_new_stream }
  if ost1.st = 0 then Run.exit 1 else
  (Run.call (Call.avcodec_alloc_context3 o.avcodec_alloc_context3)).bind fun _ =>
  if o.avcodec_alloc_context3 = 0 then Run.exit 1 else
  let c : AVCodecContext :=
    { codec_id := codec_id, width := splitWidth, height := splitHeight,
      pix_fmt := K.AV_PIX_FMT_YUV420P }
  Run.pure ({ ost1 with enc := some c }, o.avcodec_find_encoder)

/-- The function `alloc_picture`: `NULL` when no frame could be allocated,
`exit(1)` when its buffers could not. -/
def alloc_picture (alloc : Option AVFrame) (get_buffer : Int) (pix_fmt width height : Int) :
    Run (Option AVFrame) :=
  (Run.call Call.av_frame_alloc).bind fun _ =>
  match alloc with
  | none => Run.pure none
  | some p =>
    let picture : AVFrame := { p with format := pix_fmt, width := width, height := height }
    (Run.call (Call.av_frame_get_buffer get_buffer)).bind fun _ =>
    if get_buffer < 0 then Run.exit 1 else Run.pure (some picture)

/-- The function `open_video`: open the codec, allocate the re-usable frame
(and a temporary one when the pixel format is not YUV420P), copy the stream
parameters to the muxer. -/
def open_video (K : Consts) (o : SetupOracle) (ost : OutputStream) : Run OutputStream :=
  (Run.call (Call.avcodec_open2 o.avcodec_open2)).bind fun _ =>
  if o.avcodec_open2 < 0 then Run.exit 1 else
  match ost.enc with
  | none => Run.fault
  | some c =>
    (alloc_picture o.frame_alloc o.frame_get_buffer c.pix_fmt c.width c.height).bind fun frame =>
    let ost1 : OutputStream := { ost with frame := frame }
    if ost1.frame.isNone then Run.exit 1 else
    let ost2 : OutputStream := { ost1 with tmp_frame := none }
    (if c.pix_fmt ≠ K.AV_PIX_FMT_YUV420P then
      (alloc_picture o.tmp_frame_alloc o.tmp_frame_get_buffer K.AV_PIX_FMT_YUV420P
        c.width c.height).bind fun tmp =>
      let ost3 : OutputStream := { ost2 with tmp_frame := tmp }
      if ost3.tmp_frame.isNone then Run.exit 1 else Run.pure ost3
    else Run.pure ost2).bind fun ost4 =>
    if ost4.st = 0 then Run.fault else
    (Run.call (Call.avcodec_parameters_from_context
      o.avcodec_parameters_from_context)).bind fun _ =>
    if o.avcodec_parameters_from_context < 0 then Run.exit 1 else Run.pure ost4

/-- The function `close_stream`: the four `..._free` calls set the pointer
they are given to `NULL`; `sws_freeContext` takes the pointer by value. -/
def close_stream (ost : OutputStream) : OutputStream :=
  { ost with enc := none, frame := none, tmp_frame := none, swr_ctx := 0 }

/-! ## Global state -/

/-- A per-slot array `T name[MAX_PLAYERS]`. -/
abbrev Slots (α : Type) := Fin MAX_PLAYERS → α

/-- Indexing a per-slot array with an `int`: `none` outside `0 .. MAX_PLAYERS - 1`. -/
def slot? (i : Int) : Option (Fin MAX_PLAYERS) :=
  if h : 0 ≤ i ∧ i.toNat < MAX_PLAYERS then some ⟨i.toNat, h.2⟩ else none

/-- The globals of the file. -/
structure Globals where
  splitWidth : Int
  splitHeight : Int
  bufferWidth : Int
  bufferHeight : Int
  rows : Int
  cols : Int
  topRightX : Slots Int
  topRightY : Slots Int
  outCtxArray : Slots Ptr
  ret : Slots Int
  fmt : Slots Ptr
  numThreads : Slots Int
  serverOpened : Slots Bool
  video_st : Slots OutputStream

/-- A zero-initialised `OutputStream`, as the elements of the global `video_st` are. -/
def OutputStream.zero : OutputStream :=
  { st := 0, enc := none, next_pts := 0, samples_count := 0, frame := none,
    tmp_frame := none, sws_ctx := 0, swr_ctx := 0 }

/-- The globals as their initialisers leave them. -/
def Globals.initial : Globals :=
  { splitWidth := 0, splitHeight := 0, bufferWidth := 0, bufferHeight := 0, rows := 0, cols := 0,
    topRightX := fun _ => 0, topRightY := fun _ => 0, outCtxArray := fun _ => 0,
    ret := fun _ => 0, fmt := fun _ => 0, numThreads := fun _ => 0,
    serverOpened := fun _ => false, video_st := fun _ => OutputStream.zero }

/-- The fields of `*pAppParam` that the file reads. -/
structure AppParam where
  splitWidth : Int
  splitHeight : Int
  width : Int
  height : Int
  rows : Int
  cols : Int
  numPlayers : Int
  deriving DecidableEq

/-- What the library calls of one `FFMPEGThreadProc` return. -/
structure ThreadOracle where
  setup : SetupOracle
  frame : FrameOracle
  deriving DecidableEq

/-- How a block of a function ends when it does not exit or fault: control
falls through to the statement after it (`next`) or the function returns
(`done`). -/
inductive Flow (α : Type) where
  | next (a : α)
  | done (a : α)

/-- The slot of a flow, whichever way it ended. -/
def Flow.val {α : Type} : Flow α → α
  | Flow.next a => a
  | Flow.done a => a

/-- Whether control fell through. -/
def Flow.isNext {α : Type} : Flow α → Bool
  | Flow.next _ => true
  | Flow.done _ => false

/-- Sequencing of blocks: `f` runs only when the block `r` fell through. -/
def Run.andThen {α : Type} (r : Run (Flow α)) (f : α → Run (Flow α)) : Run (Flow α) :=
  r.bind fun fl =>
    match fl with
    | Flow.next a => f a
    | Flow.done a => Run.pure (Flow.done a)

/-! ## The encoder object -/

/-- The members of `class NvIFREncoder` that `StartEncoder`, `StopEncoder` and
the initialisation of `EncoderThreadProc` read or write.  `BOOL` members are
booleans, handles are pointers. -/
structure NvIFREncoder where
  hevtStopEncoder : Ptr
  bStopEncoder : Bool
  hevtInitEncoderDone : Ptr
  bInitEncoderSuccessful : Bool
  hthEncoder : Ptr
  deriving DecidableEq

namespace NvIFREncoder

/-! ## The worker: `FFMPEGThreadProc` -/

/-- Lines 411 to 421 of `FFMPEGThreadProc`: the tile origin of the slot. -/
def FFMPEGThreadProc_tileOrigin (i : Fin MAX_PLAYERS) (g : Globals) : Run Globals :=
  let playerIndex : Int := (i.val : Int)
  (cMod playerIndex g.cols).bind fun m =>
  (checkInt (m * g.splitWidth)).bind fun x =>
  let g1 : Globals := { g with topRightX := Function.update g.topRightX i x }
  if 0 ≤ playerIndex ∧ playerIndex ≤ 3 then
    Run.pure { g1 with topRightY := Function.update g1.topRightY i 0 }
  else if 4 ≤ playerIndex ∧ playerIndex ≤ 7 then
    Run.pure { g1 with topRightY := Function.update g1.topRightY i g1.splitHeight }
  else if 8 ≤ playerIndex ∧ playerIndex ≤ 11 then
    (checkInt (g1.splitHeight * 2)).bind fun y =>
    Run.pure { g1 with topRightY := Function.update g1.topRightY i y }
  else Run.pure g1

/-- Lines 429 to 439 of `FFMPEGThreadProc`: allocate the output media context,
a second time when the first attempt left it null; `return;` when there is
none.  `avformat_alloc_output_context2` stores its result, null on failure, in
`outCtxArray[playerIndex]`. -/
def FFMPEGThreadProc_context (o : SetupOracle) (i : Fin MAX_PLAYERS) (g : Globals) :
    Run (Flow Globals) :=
  (Run.call (Call.avformat_alloc_output_context2 o.alloc_output_context2_first)).bind fun _ =>
  let g1 : Globals :=
    { g with outCtxArray := Function.update g.outCtxArray i o.alloc_output_context2_first }
  (if g1.outCtxArray i = 0 then
    (Run.call (Call.avformat_alloc_output_context2 o.alloc_output_context2_second)).bind fun _ =>
    Run.pure { g1 with
      outCtxArray := Function.update g1.outCtxArray i o.alloc_output_context2_second }
  else Run.pure g1).bind fun g2 =>
  if g2.outCtxArray i = 0 then Run.pure (Flow.done g2) else Run.pure (Flow.next g2)

/-- Lines 441 to 457 of `FFMPEGThreadProc`: take the output format of the
context, add the video stream unless the format has no video codec, set the
`re` option (`return;` when that fails), open the codec.  The local
`video_codec` is set by `add_stream` only; passing it to `open_video`
uninitialised is a fault. -/
def FFMPEGThreadProc_stream (K : Consts) (o : SetupOracle) (i : Fin MAX_PLAYERS) (g : Globals) :
    Run (Flow Globals) :=
  let g3 : Globals := { g with fmt := Function.update g.fmt i o.oformat }
  if g3.fmt i = 0 then Run.fault else
  (if o.video_codec ≠ K.AV_CODEC_ID_NONE then
    (add_stream K o g3.splitWidth g3.splitHeight (g3.video_st i) o.video_codec).bind fun r =>
    Run.pure ({ g3 with video_st := Function.update g3.video_st i r.1 }, some r.2)
  else Run.pure (g3, (none : Option Ptr))).bind fun r =>
  let g4 : Globals := r.1
  let video_codec : Option Ptr := r.2
  (Run.call (Call.av_dict_set DictKey.re o.av_dict_set_re)).bind fun _ =>
  let g5 : Globals := { g4 with ret := Function.update g4.ret i o.av_dict_set_re }
  if g5.ret i < 0 then Run.pure (Flow.done g5) else
  match video_codec with
  | none => Run.fault
  | some _ =>
    (open_video K o (g5.video_st i)).bind fun ost =>
    let g6 : Globals := { g5 with video_st := Function.update g5.video_st i ost }
    (Run.call Call.av_dump_format).bind fun _ =>
    Run.pure (Flow.next g6)

/-- Lines 459 to 490 of `FFMPEGThreadProc`: set the `listen` and `an` options,
open the HTTP server on port `30000 + playerIndex`, write the stream header and
set `serverOpened[playerIndex]`; `return;` as soon as one of the calls fails. -/
def FFMPEGThreadProc_listen (o : SetupOracle) (i : Fin MAX_PLAYERS) (g : Globals) :
    Run (Flow Globals) :=
  let playerIndex : Int := (i.val : Int)
  (Run.call (Call.av_dict_set DictKey.listen o.av_dict_set_listen)).bind fun _ =>
  let g7 : Globals := { g with ret := Function.update g.ret i o.av_dict_set_listen }
  if g7.ret i < 0 then Run.pure (Flow.done g7) else
  (Run.call (Call.av_dict_set DictKey.an o.av_dict_set_an)).bind fun _ =>
  let g8 : Globals := { g7 with ret := Function.update g7.ret i o.av_dict_set_an }
  if g8.ret i < 0 then Run.pure (Flow.done g8) else
  (checkInt (30000 + playerIndex)).bind fun port =>
  (Run.call (Call.avio_open2 port o.avio_open2)).bind fun _ =>
  if o.avio_open2 < 0 then Run.pure (Flow.done g8) else
  (Run.call (Call.avformat_write_header o.avformat_write_header)).bind fun _ =>
  let g9 : Globals := { g8 with ret := Function.update g8.ret i o.avformat_write_header }
  if g9.ret i < 0 then Run.pure (Flow.done g9) else
  Run.pure (Flow.next { g9 with serverOpened := Function.update g9.serverOpened i true })

/-- Lines 423 to 490 of `FFMPEGThreadProc`: the three parts above, one after
the other; a `return;` in one of them skips the rest. -/
def FFMPEGThreadProc_openServer (K : Consts) (o : SetupOracle) (i : Fin MAX_PLAYERS)
    (g : Globals) : Run (Flow Globals) :=
  Run.andThen (FFMPEGThreadProc_context o i g) fun g1 =>
  Run.andThen (FFMPEGThreadProc_stream K o i g1) fun g2 =>
  FFMPEGThreadProc_listen o i g2

/-- The block guarded by `serverOpened[playerIndex] == false` (lines 406 to 491). -/
def FFMPEGThreadProc_setup (K : Consts) (o : SetupOracle) (i : Fin MAX_PLAYERS)
    (g : Globals) : Run (Flow Globals) :=
  if g.serverOpened i = false then
    (FFMPEGThreadProc_tileOrigin i g).bind fun g1 => FFMPEGThreadProc_openServer K o i g1
  else Run.pure (Flow.next g)

/-- Lines 493 and 494 of `FFMPEGThreadProc`: encode and send one frame, then
`numThreads[playerIndex]--`.  The call passes `topRightY[playerIndex]` for the
parameter `topRightX` of `write_video_frame` and `topRightX[playerIndex]` for
its parameter `topRightY`. -/
def FFMPEGThreadProc_frame (K : Consts) (o : FrameOracle) (i : Fin MAX_PLAYERS)
    (g : Globals) : Run Globals :=
  (write_video_frame K g.bufferWidth g.bufferHeight o (g.outCtxArray i) (g.video_st i)
    (g.topRightY i) (g.topRightX i)).bind fun r =>
  let g1 : Globals := { g with video_st := Function.update g.video_st i r.1 }
  (checkInt (g1.numThreads i - 1)).bind fun n =>
  Run.pure { g1 with numThreads := Function.update g1.numThreads i n }

/-- What follows the set-up block in `FFMPEGThreadProc`: nothing when the
block returned, the frame otherwise. -/
def FFMPEGThreadProc_rest (K : Consts) (o : FrameOracle) (i : Fin MAX_PLAYERS) :
    Flow Globals → Run Globals
  | Flow.done g1 => Run.pure g1
  | Flow.next g1 => FFMPEGThreadProc_frame K o i g1

/-- The method `NvIFREncoder::FFMPEGThreadProc(int playerIndex)`.  Every array
access of the method is at `playerIndex`; an index outside the arrays is a
fault at the first access. -/
def FFMPEGThreadProc (K : Consts) (o : ThreadOracle) (playerIndex : Int) (g : Globals) :
    Run Globals :=
  match slot? playerIndex with
  | none => Run.fault
  | some i =>
    (FFMPEGThreadProc_setup K o.setup i g).bind (FFMPEGThreadProc_rest K o.frame i)

/-- The number of calls of `avio_open2` on the port of slot `playerIndex` that
succeeded, in a list of calls. -/
def avioOpenedCount (playerIndex : Int) (calls : List Call) : Nat :=
  calls.countP fun c =>
    match c with
    | Call.avio_open2 port result => decide (port = 30000 + playerIndex ∧ 0 ≤ result)
    | _ => false


/-! ## Starting and stopping the capture thread -/

/-- What the library calls of `StartEncoder` and of the initialisation of
`EncoderThreadProc` return. -/
structure StartOracle where
  CreateEvent_stop : Ptr
  CreateEvent_initDone : Ptr
  beginthread : Ptr
  SetupNvIFR : Bool
  NvIFRSetUpTargetBufferToSys : Int
  deriving DecidableEq

/-- Lines 501 to 506 of `EncoderThreadProc`: copy the geometry out of `*pAppParam`. -/
def EncoderThreadProc_geometry (p : AppParam) (g : Globals) : Globals :=
  { g with splitWidth := p.splitWidth, splitHeight := p.splitHeight, bufferWidth := p.width,
           bufferHeight := p.height, rows := p.rows, cols := p.cols }

/-- Lines 514 to 546 of `EncoderThreadProc`: set up NvIFR and the target
buffer, record the result in `bInitEncoderSuccessful` and signal
`hevtInitEncoderDone`.  The boolean returned says whether the thread goes on to
the capture loop. -/
def EncoderThreadProc_init (K : Consts) (o : StartOracle) (e : NvIFREncoder) :
    Run (NvIFREncoder × Bool) :=
  (Run.call (Call.SetupNvIFR o.SetupNvIFR)).bind fun _ =>
  if o.SetupNvIFR = false then
    (Run.call (Call.SetEvent e.hevtInitEncoderDone)).bind fun _ =>
    (Run.call Call.CleanupNvIFR).bind fun _ =>
    Run.pure (e, false)
  else
    (Run.call (Call.NvIFRSetUpTargetBufferToSys o.NvIFRSetUpTargetBufferToSys)).bind fun _ =>
    if o.NvIFRSetUpTargetBufferToSys ≠ K.NVIFR_SUCCESS then
      (Run.call (Call.SetEvent e.hevtInitEncoderDone)).bind fun _ =>
      (Run.call Call.CleanupNvIFR).bind fun _ =>
      Run.pure (e, false)
    else
      let e1 : NvIFREncoder := { e with bInitEncoderSuccessful := true }
      (Run.call (Call.SetEvent e1.hevtInitEncoderDone)).bind fun _ =>
      Run.pure (e1, true)

/-- The method `NvIFREncoder::StartEncoder`.  The wait on `hevtInitEncoderDone`
returns once the thread just started has signalled the event, which it does
at the end of `EncoderThreadProc_init`; the thread does not write
`bInitEncoderSuccessful` after that.  A non-null result of `_beginthread` is
taken to be the handle of a thread that runs `EncoderThreadProc`. -/
def StartEncoder (K : Consts) (o : StartOracle) (e : NvIFREncoder) : Run (NvIFREncoder × Bool) :=
  (Run.call (Call.CreateEvent o.CreateEvent_stop)).bind fun _ =>
  let e1 : NvIFREncoder := { e with hevtStopEncoder := o.CreateEvent_stop }
  if e1.hevtStopEncoder = 0 then Run.pure (e1, false) else
  let e2 : NvIFREncoder := { e1 with bStopEncoder := false }
  (Run.call (Call.CreateEvent o.CreateEvent_initDone)).bind fun _ =>
  let e3 : NvIFREncoder := { e2 with hevtInitEncoderDone := o.CreateEvent_initDone }
  if e3.hevtInitEncoderDone = 0 then Run.pure (e3, false) else
  let e4 : NvIFREncoder := { e3 with bInitEncoderSuccessful := false }
  (Run.call (Call.beginthread ThreadProc.EncoderThreadStartProc (o.beginthread : Int))).bind fun _ =>
  let e5 : NvIFREncoder := { e4 with hthEncoder := o.beginthread }
  if e5.hthEncoder = 0 then Run.pure (e5, false) else
  (EncoderThreadProc_init K o e5).bind fun r =>
  let e6 : NvIFREncoder := r.1
  (Run.call (Call.WaitForSingleObject e6.hevtInitEncoderDone)).bind fun _ =>
  (Run.call (Call.CloseHandle e6.hevtInitEncoderDone)).bind fun _ =>
  let e7 : NvIFREncoder := { e6 with hevtInitEncoderDone := 0 }
  Run.pure (e7, e7.bInitEncoderSuccessful)

/-- The method `NvIFREncoder::StopEncoder`. -/
def StopEncoder (e : NvIFREncoder) : Run NvIFREncoder :=
  if e.bStopEncoder = true ∨ e.hevtStopEncoder = 0 ∨ e.hthEncoder = 0 then Run.pure e else
  let e1 : NvIFREncoder := { e with bStopEncoder := true }
  (Run.call (Call.SetEvent e1.hevtStopEncoder)).bind fun _ =>
  (Run.call (Call.WaitForSingleObject e1.hthEncoder)).bind fun _ =>
  (Run.call (Call.CloseHandle e1.hevtStopEncoder)).bind fun _ =>
  Run.pure { e1 with hevtStopEncoder := 0 }

/-! ## The capture loop: launching workers and tearing down -/

/-- The globals together with the workers in flight: `running i` counts the
threads started on `FFMPEGThreadStartProc<i>` that have not ended yet.  It is
a ghost of the model, the program keeps no such count. -/
structure Sys where
  g : Globals
  running : Slots Nat

/-- The state in which the capture loop is entered: the globals as initialised,
with the geometry of `*pAppParam`, and no worker. -/
def Sys.initial (p : AppParam) : Sys :=
  { g := EncoderThreadProc_geometry p Globals.initial, running := fun _ => 0 }

/-- One of the twelve launch statements of `EncoderThreadProc` (lines 569 to
628), the one of slot `k`:
`if (pAppParam->numPlayers > k && numThreads[k] < 1) { _beginthread(FFMPEGThreadStartProc<k>, ...); numThreads[k]++; }`.
`numThreads[k]` is read only when `numPlayers > k`.  `handle` is what
`_beginthread` returns, `-1` (no thread was started) or the handle of a thread
that runs `FFMPEGThreadProc(k)`. -/
def EncoderThreadProc_launch (numPlayers : Int) (k : Nat) (handle : Int) (s : Sys) : Run Sys :=
  if numPlayers > (k : Int) then
    match slot? (k : Int) with
    | none => Run.fault
    | some i =>
      if s.g.numThreads i < 1 then
        (Run.call (Call.beginthread (ThreadProc.FFMPEGThreadStartProc k) handle)).bind fun _ =>
        let running : Slots Nat :=
          if handle = -1 then s.running else Function.update s.running i (s.running i + 1)
        (checkInt (s.g.numThreads i + 1)).bind fun n =>
        Run.pure { g := { s.g with numThreads := Function.update s.g.numThreads i n },
                   running := running }
      else Run.pure s
  else Run.pure s

/-- The launch statements of slots `k`, `k + 1`, ..., `k + n - 1`, in order. -/
def EncoderThreadProc_launchFrom (numPlayers : Int) (handles : Nat → Int) :
    Nat → Nat → Sys → Run Sys
  | 0, _, s => Run.pure s
  | n + 1, k, s =>
    (EncoderThreadProc_launch numPlayers k (handles k) s).bind fun s1 =>
    EncoderThreadProc_launchFrom numPlayers handles n (k + 1) s1

/-- Lines 569 to 628 of `EncoderThreadProc`: the launch statements of slots 0 to 11. -/
def EncoderThreadProc_launchAll (numPlayers : Int) (handles : Nat → Int) (s : Sys) : Run Sys :=
  EncoderThreadProc_launchFrom numPlayers handles 12 0 s

/-- The body of the tear-down loop of `EncoderThreadProc` (lines 647 to 657)
at index `i`.  `nofile` is the value of `fmt[i]->flags & AVFMT_NOFILE`. -/
def EncoderThreadProc_teardownSlot (nofile : Int → Bool) (i : Int) (g : Globals) : Run Globals :=
  match slot? i with
  | none => Run.fault
  | some j =>
    (Run.call (Call.av_write_trailer (g.outCtxArray j))).bind fun _ =>
    let g1 : Globals :=
      { g with video_st := Function.update g.video_st j (close_stream (g.video_st j)) }
    if g1.fmt j = 0 then Run.fault else
    (if nofile i = false then
      (if g1.outCtxArray j = 0 then Run.fault else Run.call Call.avio_closep)
    else Run.pure ()).bind fun _ =>
    (Run.call (Call.avformat_free_context (g1.outCtxArray j))).bind fun _ =>
    Run.pure g1

/-- The iterations `i`, `i + 1`, ..., `i + n - 1` of the tear-down loop. -/
def EncoderThreadProc_teardownFrom (nofile : Int → Bool) : Nat → Int → Globals → Run Globals
  | 0, _, g => Run.pure g
  | n + 1, i, g =>
    (EncoderThreadProc_teardownSlot nofile i g).bind fun g1 =>
    EncoderThreadProc_teardownFrom nofile n (i + 1) g1

/-- The tear-down loop `for (int i = 0; i < pAppParam->numPlayers; i++)` of
`EncoderThreadProc` (lines 641 to 658): it makes `numPlayers` iterations, none
when `numPlayers` is negative. -/
def EncoderThreadProc_teardown (nofile : Int → Bool) (numPlayers : Int) (g : Globals) :
    Run Globals :=
  EncoderThreadProc_teardownFrom nofile numPlayers.toNat 0 g

/-- A step of the system made of the capture thread and the workers.  The
capture thread executes one launch statement; or a worker of slot `i` that is
in flight runs `FFMPEGThreadProc(i)` to its return and ends.  Each step is
atomic.  A worker that exits the process or faults leaves no state behind. -/
inductive Step (K : Consts) (numPlayers : Int) : Sys → Sys → Prop where
  | launch (k : Nat) (handle : Int) (s s1 : Sys) :
      k < MAX_PLAYERS →
      (EncoderThreadProc_launch numPlayers k handle s).out = Outcome.ret s1 →
      Step K numPlayers s s1
  | worker (i : Fin MAX_PLAYERS) (o : ThreadOracle) (s : Sys) (g1 : Globals) :
      0 < s.running i →
      (FFMPEGThreadProc K o (i.val : Int) s.g).out = Outcome.ret g1 →
      Step K numPlayers s { g := g1, running := Function.update s.running i (s.running i - 1) }

/-- The states the system reaches from the initial one. -/
inductive Reachable (K : Consts) (p : AppParam) : Sys → Prop where
  | init : Reachable K p (Sys.initial p)
  | step (s s1 : Sys) : Reachable K p s → Step K p.numPlayers s s1 → Reachable K p s1

end NvIFREncoder

/-! ## Concrete inputs -/

/-- The values the headers of FFmpeg and NvIFR give the constants. -/
def K0 : Consts :=
  { AV_PIX_FMT_YUV420P := 0, AV_CODEC_ID_NONE := 0, AV_CODEC_ID_MPEG1VIDEO := 1,
    AV_CODEC_ID_MPEG2VIDEO := 2, NVIFR_SUCCESS := 0 }

/-- A stream as `add_stream` and `open_video` leave it for a 640x360 tile. -/
def ostReady : OutputStream :=
  { st := 1, enc := some { codec_id := 27, width := 640, height := 360, pix_fmt := 0 },
    next_pts := 0, samples_count := 0,
    frame := some { pts := 0, width := 640, height := 360, format := 0 },
    tmp_frame := none, sws_ctx := 0, swr_ctx := 0 }

/-- Every call succeeds and the encoder produces a packet. -/
def oPacket : FrameOracle :=
  { av_frame_make_writable := 0, sws_getContext := 0, avcodec_encode_video2 := 0,
    got_packet := 1, av_interleaved_write_frame := 0 }

/-- The encoder succeeds without producing a packet; the muxer would fail. -/
def oNoPacket : FrameOracle :=
  { av_frame_make_writable := 0, sws_getContext := 0, avcodec_encode_video2 := 0,
    got_packet := 0, av_interleaved_write_frame := -1 }

/-- The frame cannot be made writable; encoder and muxer would succeed. -/
def oNotWritable : FrameOracle :=
  { av_frame_make_writable := -1, sws_getContext := 0, avcodec_encode_video2 := 0,
    got_packet := 1, av_interleaved_write_frame := 0 }

/-- An encoder object before `StartEncoder`. -/
def encoderFresh : NvIFREncoder :=
  { hevtStopEncoder := 0, bStopEncoder := false, hevtInitEncoderDone := 0,
    bInitEncoderSuccessful := false, hthEncoder := 0 }

/-- An encoder object whose capture thread is running. -/
def encoderRunning : NvIFREncoder :=
  { hevtStopEncoder := 100, bStopEncoder := false, hevtInitEncoderDone := 0,
    bInitEncoderSuccessful := true, hthEncoder := 102 }

/-- Every call of `StartEncoder` and of the thread initialisation succeeds. -/
def oStart : NvIFREncoder.StartOracle :=
  { CreateEvent_stop := 100, CreateEvent_initDone := 101, beginthread := 102,
    SetupNvIFR := true, NvIFRSetUpTargetBufferToSys := 0 }

/-- What the set-up block of slot `i` leaves alone: the counters, the tile
origins, and every entry of another slot in `serverOpened`, `outCtxArray` and
`fmt`. -/
def SetupKeeps (i : Fin MAX_PLAYERS) (g g1 : Globals) : Prop :=
  g1.numThreads = g.numThreads ∧ g1.topRightX = g.topRightX ∧ g1.topRightY = g.topRightY ∧
    ∀ j, j ≠ i →
      g1.serverOpened j = g.serverOpened j ∧ g1.outCtxArray j = g.outCtxArray j ∧
        g1.fmt j = g.fmt j

/-- Whether a call is an `avio_open2`. -/
def Call.isAvioOpen : Call → Bool
  | Call.avio_open2 _ _ => true
  | _ => false

/-- Whether a call is an `av_picture_crop`. -/
def Call.isCrop : Call → Bool
  | Call.av_picture_crop _ _ => true
  | _ => false

/-- A list of calls without `avio_open2` and without `av_picture_crop`. -/
def Quiet (l : List Call) : Prop :=
  ∀ c ∈ l, c.isAvioOpen = false ∧ c.isCrop = false

/-- Twelve players on a 4x3 grid of 640x360 tiles. -/
def appParam12 : AppParam :=
  { splitWidth := 640, splitHeight := 360, width := 2560, height := 1080, rows := 3, cols := 4,
    numPlayers := 12 }

/-- Every call of the set-up block succeeds. -/
def oSetupOk : SetupOracle :=
  { alloc_output_context2_first := 500, alloc_output_context2_second := 0, oformat := 501,
    video_codec := 27, avcodec_find_encoder := 502, avformat_new_stream := 503,
    avcodec_alloc_context3 := 504, av_dict_set_re := 0, avcodec_open2 := 0,
    frame_alloc := some { pts := 0, width := 0, height := 0, format := -1 },
    frame_get_buffer := 0, tmp_frame_alloc := none, tmp_frame_get_buffer := 0,
    avcodec_parameters_from_context := 0, av_dict_set_listen := 0, av_dict_set_an := 0,
    avio_open2 := 0, avformat_write_header := 0 }

/-- Every call of the worker succeeds. -/
def oThreadOk : ThreadOracle := { setup := oSetupOk, frame := oPacket }

/-- The HTTP server cannot be opened; every other call succeeds. -/
def oAvioFails : ThreadOracle := { setup := { oSetupOk with avio_open2 := -1 }, frame := oPacket }

namespace NvIFREncoder

/-- The invariant of the system: for every slot, the workers in flight are at
most `numThreads[i]`, which is at most 1. -/
def Sys.Inv (s : Sys) : Prop :=
  ∀ i, (s.running i : Int) ≤ s.g.numThreads i ∧ s.g.numThreads i ≤ 1

/-- The globals after the first launch of slot 3. -/
def gLaunched3 : Globals :=
  { (Sys.initial appParam12).g with
    numThreads := Function.update (Sys.initial appParam12).g.numThreads 3 1 }

/-- The globals when the server of every slot is open. -/
def gAllOpen : Globals :=
  { (Sys.initial appParam12).g with
    outCtxArray := fun _ => 500, fmt := fun _ => 501, serverOpened := fun _ => true,
    video_st := fun _ => ostReady }

end NvIFREncoder

/-! # Properties -/

/-! ## Runs -/

namespace Run

@[simp] theorem pure_bind {α β : Type} (a : α) (f : α → Run β) : (Run.pure a).bind f = f a := rfl

@[simp] theorem call_bind {β : Type} (c : Call) (f : Unit → Run β) :
    (Run.call c).bind f = ⟨c :: (f ()).calls, (f ()).out⟩ := rfl

@[simp] theorem exit_bind {α β : Type} (n : Int) (f : α → Run β) :
    (Run.exit n : Run α).bind f = Run.exit n := rfl

@[simp] theorem fault_bind {α β : Type} (f : α → Run β) :
    (Run.fault : Run α).bind f = Run.fault := rfl

@[simp] theorem pure_out {α : Type} (a : α) : (Run.pure a).out = Outcome.ret a := rfl

@[simp] theorem pure_calls {α : Type} (a : α) : (Run.pure a).calls = [] := rfl

@[simp] theorem exit_out {α : Type} (n : Int) : (Run.exit n : Run α).out = Outcome.exit n := rfl

@[simp] theorem exit_calls {α : Type} (n : Int) : (Run.exit n : Run α).calls = [] := rfl

@[simp] theorem fault_out {α : Type} : (Run.fault : Run α).out = Outcome.fault := rfl

@[simp] theorem fault_calls {α : Type} : (Run.fault : Run α).calls = [] := rfl

@[simp] theorem call_out (c : Call) : (Run.call c).out = Outcome.ret () := rfl

@[simp] theorem call_calls (c : Call) : (Run.call c).calls = [c] := rfl

theorem bind_out_ret {α β : Type} (r : Run α) (f : α → Run β) (b : β) :
    (r.bind f).out = Outcome.ret b ↔ ∃ a, r.out = Outcome.ret a ∧ (f a).out = Outcome.ret b := by
  unfold Run.bind
  cases h : r.out <;> simp

theorem bind_out_exit {α β : Type} (r : Run α) (f : α → Run β) (n : Int) :
    (r.bind f).out = Outcome.exit n ↔
      r.out = Outcome.exit n ∨ ∃ a, r.out = Outcome.ret a ∧ (f a).out = Outcome.exit n := by
  unfold Run.bind
  cases h : r.out <;> simp

theorem bind_calls_of_ret {α β : Type} (r : Run α) (f : α → Run β) (a : α)
    (h : r.out = Outcome.ret a) : (r.bind f).calls = r.calls ++ (f a).calls := by
  unfold Run.bind
  simp [h]

theorem mem_bind_calls {α β : Type} (r : Run α) (f : α → Run β) (c : Call) :
    c ∈ (r.bind f).calls ↔ c ∈ r.calls ∨ ∃ a, r.out = Outcome.ret a ∧ c ∈ (f a).calls := by
  unfold Run.bind
  cases h : r.out <;> simp

end Run

/-! ## Video output -/

theorem get_video_frame_ret (K : Consts) (bw bh : Int) (o : FrameOracle) (ost : OutputStream)
    (tx ty : Int) (ost1 : OutputStream) (fr : Option AVFrame)
    (h : (get_video_frame K bw bh o ost tx ty).out = Outcome.ret (ost1, fr)) :
    ∃ f, fr = some f ∧ f.pts = ost.next_pts ∧ ost1.next_pts = ost.next_pts + 1 ∧
      ost1.frame = some f ∧ ost1.st = ost.st ∧ ost1.enc = ost.enc ∧
      ost.next_pts + 1 ≤ INT64_MAX := by
  rcases ost with ⟨st, enc, np, sc, frame, tmp, sws, swr⟩
  rcases enc with _ | c <;> rcases frame with _ | f <;> rcases tmp with _ | t <;>
    simp only [get_video_frame, fill_yuv_image, checkInt64, Run.call_bind, Run.pure_bind,
      Run.exit_bind, Run.fault_bind] at h <;>
    split_ifs at h <;>
    simp [Run.bind, Run.pure, Run.fault, Run.exit] at h
  all_goals
    split_ifs at h <;> simp at h <;> obtain ⟨rfl, rfl⟩ := h <;> simp_all

theorem get_video_frame_exit (K : Consts) (bw bh : Int) (o : FrameOracle) (ost : OutputStream)
    (tx ty : Int) (n : Int) :
    (get_video_frame K bw bh o ost tx ty).out = Outcome.exit n ↔
      n = 1 ∧ (o.av_frame_make_writable < 0 ∨
        ∃ c, ost.enc = some c ∧ c.pix_fmt ≠ K.AV_PIX_FMT_YUV420P ∧ ost.sws_ctx = 0 ∧
          o.sws_getContext = 0) := by
  rcases ost with ⟨st, enc, np, sc, frame, tmp, sws, swr⟩
  rcases enc with _ | c <;> rcases frame with _ | f <;> rcases tmp with _ | t <;>
    simp only [get_video_frame, fill_yuv_image, checkInt64, Run.call_bind, Run.pure_bind,
      Run.exit_bind, Run.fault_bind] <;>
    split_ifs <;>
    simp_all [Run.bind, Run.pure, Run.fault, Run.exit, eq_comm]
  all_goals
    split_ifs <;> simp_all

theorem get_video_frame_calls (K : Consts) (bw bh : Int) (o : FrameOracle) (ost : OutputStream)
    (tx ty : Int) (c : Call) (h : c ∈ (get_video_frame K bw bh o ost tx ty).calls) :
    c = Call.av_frame_make_writable o.av_frame_make_writable ∨
    c = Call.sws_getContext o.sws_getContext ∨ c = Call.av_frame_alloc ∨
    c = Call.avpicture_fill bw bh ∨ c = Call.av_picture_crop tx ty ∨ c = Call.sws_scale := by
  rcases ost with ⟨st, enc, np, sc, frame, tmp, sws, swr⟩
  rcases enc with _ | c <;> rcases frame with _ | f <;> rcases tmp with _ | t <;>
    simp only [get_video_frame, fill_yuv_image, checkInt64, Run.call_bind, Run.pure_bind,
      Run.exit_bind, Run.fault_bind] at h <;>
    split_ifs at h <;>
    simp [Run.bind, Run.pure, Run.fault, Run.exit] at h
  all_goals (try split_ifs at h)
  all_goals (try simp at h)
  all_goals tauto

theorem write_video_frame_out (K : Consts) (bw bh : Int) (o : FrameOracle) (oc : Ptr)
    (ost : OutputStream) (tx ty : Int) (r : OutputStream × Option AVFrame)
    (h : (get_video_frame K bw bh o ost tx ty).out = Outcome.ret r) :
    (write_video_frame K bw bh o oc ost tx ty).out =
      if o.avcodec_encode_video2 < 0 then Outcome.exit 1
      else if o.got_packet = 0 then Outcome.ret (r.1, if r.2.isSome then 0 else 1)
      else if ost.st = 0 then Outcome.fault
      else if o.av_interleaved_write_frame < 0 then Outcome.exit 1
      else Outcome.ret (r.1, 0) := by
  obtain ⟨f, hf, -, -, -, hst, -, -⟩ := get_video_frame_ret K bw bh o ost tx ty r.1 r.2 h
  unfold write_video_frame write_frame
  simp only [Run.bind, h, hst]
  split_ifs <;> first | (simp [Run.call, Run.pure, Run.exit, Run.fault, *]; done) | simp_all

theorem write_video_frame_out_of_exit (K : Consts) (bw bh : Int) (o : FrameOracle) (oc : Ptr)
    (ost : OutputStream) (tx ty : Int) (n : Int)
    (h : (get_video_frame K bw bh o ost tx ty).out = Outcome.exit n) :
    (write_video_frame K bw bh o oc ost tx ty).out = Outcome.exit n := by
  unfold write_video_frame
  simp only [Run.bind, h]

theorem write_video_frame_out_of_fault (K : Consts) (bw bh : Int) (o : FrameOracle) (oc : Ptr)
    (ost : OutputStream) (tx ty : Int)
    (h : (get_video_frame K bw bh o ost tx ty).out = Outcome.fault) :
    (write_video_frame K bw bh o oc ost tx ty).out = Outcome.fault := by
  unfold write_video_frame
  simp only [Run.bind, h]

theorem write_video_frame_calls (K : Consts) (bw bh : Int) (o : FrameOracle) (oc : Ptr)
    (ost : OutputStream) (tx ty : Int) (c : Call)
    (h : c ∈ (write_video_frame K bw bh o oc ost tx ty).calls) :
    c ∈ (get_video_frame K bw bh o ost tx ty).calls ∨
    c = Call.avcodec_encode_video2 o.avcodec_encode_video2 o.got_packet ∨
    (o.got_packet ≠ 0 ∧ 0 ≤ o.avcodec_encode_video2 ∧
      (c = Call.av_packet_rescale_ts ∨
        c = Call.av_interleaved_write_frame oc o.av_interleaved_write_frame)) := by
  unfold write_video_frame write_frame at h
  rw [Run.mem_bind_calls] at h
  rcases h with h | ⟨r, -, h⟩
  · exact Or.inl h
  · right
    simp only [Run.call_bind] at h
    split_ifs at h <;> simp [Run.bind, Run.pure, Run.exit, Run.fault] at h <;>
      (try split_ifs at h) <;> (try simp at h) <;> simp only [not_lt] at * <;> tauto

/-- C5, as stated, fails: when `av_frame_make_writable` returns a negative
value `write_video_frame` exits with status 1 although the encoder call would
not return a negative value and the muxer write would not either. -/
theorem write_video_frame_exit_counterexample :
    (write_video_frame K0 1280 720 oNotWritable 1 ostReady 0 0).out = Outcome.exit 1 ∧
      ¬ (oNotWritable.avcodec_encode_video2 < 0 ∨
          (oNotWritable.got_packet ≠ 0 ∧ oNotWritable.av_interleaved_write_frame < 0)) :=
  ⟨rfl, by decide⟩

/-- C5, amended.  `write_video_frame` exits (always with status 1) exactly when
`get_video_frame` exits, or `get_video_frame` returns and the encoder call
returns a negative value, or a packet was produced on a stream whose `st` is
set and the muxer write returns a negative value.  `get_video_frame` exits
exactly when `av_frame_make_writable` returns a negative value or the pixel
format is not YUV420P and no conversion context exists or can be created.
When `get_video_frame` returns, the encoder does not fail and no packet was
produced, the function returns, the muxer is not called, and the run is the
same whatever the muxer would have returned. -/
theorem write_video_frame_exit_iff (K : Consts) (bw bh : Int) (o : FrameOracle) (oc : Ptr)
    (ost : OutputStream) (tx ty : Int) :
    ((write_video_frame K bw bh o oc ost tx ty).out = Outcome.exit 1 ↔
      (get_video_frame K bw bh o ost tx ty).out = Outcome.exit 1 ∨
      ((∃ r, (get_video_frame K bw bh o ost tx ty).out = Outcome.ret r) ∧
        (o.avcodec_encode_video2 < 0 ∨
          (o.got_packet ≠ 0 ∧ ost.st ≠ 0 ∧ o.av_interleaved_write_frame < 0)))) ∧
    (∀ n, (write_video_frame K bw bh o oc ost tx ty).out = Outcome.exit n → n = 1) ∧
    ((get_video_frame K bw bh o ost tx ty).out = Outcome.exit 1 ↔
      o.av_frame_make_writable < 0 ∨
        ∃ c, ost.enc = some c ∧ c.pix_fmt ≠ K.AV_PIX_FMT_YUV420P ∧ ost.sws_ctx = 0 ∧
          o.sws_getContext = 0) ∧
    ((∃ r, (get_video_frame K bw bh o ost tx ty).out = Outcome.ret r) →
      0 ≤ o.avcodec_encode_video2 → o.got_packet = 0 →
        (∃ v, (write_video_frame K bw bh o oc ost tx ty).out = Outcome.ret v) ∧
        (∀ ctx res, Call.av_interleaved_write_frame ctx res ∉
          (write_video_frame K bw bh o oc ost tx ty).calls) ∧
        ∀ m, write_video_frame K bw bh { o with av_interleaved_write_frame := m } oc ost tx ty =
          write_video_frame K bw bh o oc ost tx ty) := by
  refine ⟨?_, ?_, ?_, ?_⟩
  · cases hg : (get_video_frame K bw bh o ost tx ty).out with
    | ret r =>
      rw [write_video_frame_out K bw bh o oc ost tx ty r hg]
      split_ifs <;> simp_all
    | exit n =>
      rw [write_video_frame_out_of_exit K bw bh o oc ost tx ty n hg]
      simp
    | fault =>
      rw [write_video_frame_out_of_fault K bw bh o oc ost tx ty hg]
      simp
  · intro n hn
    cases hg : (get_video_frame K bw bh o ost tx ty).out with
    | ret r =>
      rw [write_video_frame_out K bw bh o oc ost tx ty r hg] at hn
      split_ifs at hn <;> simp_all
    | exit m =>
      rw [write_video_frame_out_of_exit K bw bh o oc ost tx ty m hg] at hn
      have := (get_video_frame_exit K bw bh o ost tx ty m).1 hg
      simp_all
    | fault =>
      rw [write_video_frame_out_of_fault K bw bh o oc ost tx ty hg] at hn
      simp at hn
  · rw [get_video_frame_exit]
    simp
  · rintro ⟨r, hr⟩ henc hgot
    refine ⟨?_, ?_, ?_⟩
    · rw [write_video_frame_out K bw bh o oc ost tx ty r hr]
      simp [not_lt.mpr henc, hgot]
    · intro ctx res hmem
      rcases write_video_frame_calls K bw bh o oc ost tx ty _ hmem with h | h | h
      · rcases get_video_frame_calls K bw bh o ost tx ty _ h with h | h | h | h | h | h <;>
          simp at h
      · simp at h
      · exact h.1 hgot
    · intro m
      simp [write_video_frame, get_video_frame, hgot]

/-- The amended C5 at a concrete input: the encoder produces no packet and the
muxer would fail; `write_video_frame` returns and does not call the muxer. -/
theorem write_video_frame_exit_iff_witness :
    (∃ v, (write_video_frame K0 1280 720 oNoPacket 1 ostReady 0 0).out = Outcome.ret v) ∧
      ∀ ctx res, Call.av_interleaved_write_frame ctx res ∉
        (write_video_frame K0 1280 720 oNoPacket 1 ostReady 0 0).calls :=
  have h := (write_video_frame_exit_iff K0 1280 720 oNoPacket 1 ostReady 0 0).2.2.2
    ⟨_, rfl⟩ (by decide) rfl
  ⟨h.1, h.2.1⟩

/-- C6.  Whenever `write_video_frame` returns, `get_video_frame` returned a
frame pointer `r.2`, and the value returned is 1 when there is no frame
(`r.2` is `NULL`) and the encoder produced no packet, and 0 otherwise. -/
theorem write_video_frame_return_value (K : Consts) (bw bh : Int) (o : FrameOracle) (oc : Ptr)
    (ost : OutputStream) (tx ty : Int) (ost1 : OutputStream) (v : Int)
    (h : (write_video_frame K bw bh o oc ost tx ty).out = Outcome.ret (ost1, v)) :
    ∃ r, (get_video_frame K bw bh o ost tx ty).out = Outcome.ret r ∧
      v = if r.2 = none ∧ o.got_packet = 0 then 1 else 0 := by
  cases hg : (get_video_frame K bw bh o ost tx ty).out with
  | ret r =>
    refine ⟨r, rfl, ?_⟩
    obtain ⟨f, hf, -⟩ := get_video_frame_ret K bw bh o ost tx ty r.1 r.2 hg
    rw [write_video_frame_out K bw bh o oc ost tx ty r hg] at h
    simp only [hf, Option.isSome_some, if_true] at h
    split_ifs at h <;> simp at h <;> simp [hf, h.2.symm]
  | exit n =>
    rw [write_video_frame_out_of_exit K bw bh o oc ost tx ty n hg] at h
    simp at h
  | fault =>
    rw [write_video_frame_out_of_fault K bw bh o oc ost tx ty hg] at h
    simp at h

/-- C6 at two concrete inputs: with and without a packet, the value is 0. -/
theorem write_video_frame_return_value_witness :
    (∃ r, (get_video_frame K0 1280 720 oPacket ostReady 0 0).out = Outcome.ret r ∧
      (0 : Int) = if r.2 = none ∧ oPacket.got_packet = 0 then 1 else 0) ∧
    (∃ r, (get_video_frame K0 1280 720 oNoPacket ostReady 0 0).out = Outcome.ret r ∧
      (0 : Int) = if r.2 = none ∧ oNoPacket.got_packet = 0 then 1 else 0) :=
  ⟨write_video_frame_return_value K0 1280 720 oPacket 1 ostReady 0 0 _ 0 rfl,
   write_video_frame_return_value K0 1280 720 oNoPacket 1 ostReady 0 0 _ 0 rfl⟩

/-- X1.  `get_video_frame` never returns `NULL`, so `write_video_frame`
returns 0 whenever it returns. -/
theorem write_video_frame_returns_zero (K : Consts) (bw bh : Int) (o : FrameOracle) (oc : Ptr)
    (ost : OutputStream) (tx ty : Int) (ost1 : OutputStream) (v : Int)
    (h : (write_video_frame K bw bh o oc ost tx ty).out = Outcome.ret (ost1, v)) : v = 0 := by
  cases hg : (get_video_frame K bw bh o ost tx ty).out with
  | ret r =>
    obtain ⟨f, hf, -⟩ := get_video_frame_ret K bw bh o ost tx ty r.1 r.2 hg
    rw [write_video_frame_out K bw bh o oc ost tx ty r hg] at h
    simp only [hf, Option.isSome_some, if_true] at h
    split_ifs at h <;> simp at h <;> exact h.2.symm
  | exit n =>
    rw [write_video_frame_out_of_exit K bw bh o oc ost tx ty n hg] at h
    simp at h
  | fault =>
    rw [write_video_frame_out_of_fault K bw bh o oc ost tx ty hg] at h
    simp at h

/-- X1 at a concrete input: a frame is encoded without a packet and the value
returned is 0. -/
theorem write_video_frame_returns_zero_witness :
    ∃ ost1 v, (write_video_frame K0 1280 720 oNoPacket 1 ostReady 0 0).out =
      Outcome.ret (ost1, v) ∧ v = 0 :=
  ⟨_, _, rfl, write_video_frame_returns_zero K0 1280 720 oNoPacket 1 ostReady 0 0 _ _ rfl⟩

/-- C9.  When `n` successive calls of `get_video_frame` on a stream whose
`next_pts` is `p` all return, they return `n` frames, the `k`-th of which
(`1 ≤ k ≤ n`) has `pts = p + k - 1`, and they leave `next_pts = p + n`. -/
theorem get_video_frames_pts (K : Consts) (bw bh tx ty : Int) (os : List FrameOracle)
    (ost ost1 : OutputStream) (frames : List (Option AVFrame))
    (h : (get_video_frames K bw bh tx ty os ost).out = Outcome.ret (ost1, frames)) :
    frames.length = os.length ∧ ost1.next_pts = ost.next_pts + os.length ∧
      ∀ k, 1 ≤ k → k ≤ os.length →
        ∃ f, frames[k - 1]? = some (some f) ∧ f.pts = ost.next_pts + k - 1 := by
  induction os generalizing ost ost1 frames with
  | nil =>
    simp [get_video_frames] at h
    obtain ⟨rfl, rfl⟩ := h
    simp
    omega
  | cons o os ih =>
    simp only [get_video_frames, Run.bind_out_ret] at h
    obtain ⟨r, hr, rs, hrs, hp⟩ := h
    simp at hp
    obtain ⟨rfl, rfl⟩ := hp
    obtain ⟨f, hf, hpts, hnext, -⟩ := get_video_frame_ret K bw bh o ost tx ty r.1 r.2 hr
    obtain ⟨hlen, hn, hk⟩ := ih r.1 rs.1 rs.2 hrs
    refine ⟨by simp [hlen], by simp [hn, hnext]; ring, ?_⟩
    intro k hk1 hk2
    rcases Nat.eq_or_lt_of_le hk1 with rfl | hlt
    · exact ⟨f, by simp [hf], by simp [hpts]⟩
    · obtain ⟨f2, hf2, hp2⟩ := hk (k - 1) (by omega) (by simp at hk2; omega)
      refine ⟨f2, ?_, ?_⟩
      · have : k - 1 = (k - 1 - 1) + 1 := by omega
        rw [this, List.getElem?_cons_succ]
        exact hf2
      · rw [hp2, hnext]
        have : ((k - 1 : Nat) : Int) = (k : Int) - 1 := by omega
        rw [this]
        ring

/-- C9 at a concrete input: three calls on a stream with `next_pts = 0` return,
the third frame has `pts = 2` and `next_pts` is left at 3. -/
theorem get_video_frames_pts_witness :
    ∃ ost1 frames,
      (get_video_frames K0 1280 720 0 0 [oPacket, oNoPacket, oPacket] ostReady).out =
        Outcome.ret (ost1, frames) ∧
      frames.length = 3 ∧ ost1.next_pts = 3 ∧ ∃ f, frames[2]? = some (some f) ∧ f.pts = 2 :=
  have h := get_video_frames_pts K0 1280 720 0 0 [oPacket, oNoPacket, oPacket] ostReady _ _ rfl
  ⟨_, _, rfl, h.1, h.2.1, h.2.2 3 (by decide) (by decide)⟩

/-! ## Starting and stopping -/

namespace NvIFREncoder

/-- C2.  `StartEncoder` always returns, and it returns `TRUE` exactly when the
stop event, the init-done event and the thread handle are non-null,
`SetupNvIFR` succeeded and `NvIFRSetUpTargetBufferToSys` returned
`NVIFR_SUCCESS`; otherwise it returns `FALSE`. -/
theorem StartEncoder_true_iff (K : Consts) (o : StartOracle) (e : NvIFREncoder) :
    ∃ e1 b, (StartEncoder K o e).out = Outcome.ret (e1, b) ∧
      (b = true ↔
        o.CreateEvent_stop ≠ 0 ∧ o.CreateEvent_initDone ≠ 0 ∧ o.beginthread ≠ 0 ∧
          o.SetupNvIFR = true ∧ o.NvIFRSetUpTargetBufferToSys = K.NVIFR_SUCCESS) := by
  unfold StartEncoder EncoderThreadProc_init
  simp only [Run.call_bind]
  split_ifs <;> simp_all [Run.bind, Run.pure]

/-- C3.  A second `StopEncoder` changes nothing and calls nothing, and so does
a first one when `bStopEncoder` is set or `hevtStopEncoder` or `hthEncoder` is
null. -/
theorem StopEncoder_idempotent (e : NvIFREncoder) :
    (∃ e1, (StopEncoder e).out = Outcome.ret e1 ∧ (StopEncoder e1).out = Outcome.ret e1 ∧
      (StopEncoder e1).calls = []) ∧
    ((e.bStopEncoder = true ∨ e.hevtStopEncoder = 0 ∨ e.hthEncoder = 0) →
      (StopEncoder e).out = Outcome.ret e ∧ (StopEncoder e).calls = []) := by
  constructor
  · by_cases h : e.bStopEncoder = true ∨ e.hevtStopEncoder = 0 ∨ e.hthEncoder = 0
    · exact ⟨e, by simp [StopEncoder, h], by simp [StopEncoder, h], by simp [StopEncoder, h]⟩
    · refine ⟨{ e with bStopEncoder := true, hevtStopEncoder := 0 }, ?_, ?_, ?_⟩ <;>
        simp [StopEncoder, h]
  · intro h
    simp [StopEncoder, h]

/-- C3 at a concrete input: stopping a running encoder signals and closes the
stop event once; stopping it again does nothing. -/
theorem StopEncoder_idempotent_witness :
    (StopEncoder encoderRunning).calls =
        [Call.SetEvent 100, Call.WaitForSingleObject 102, Call.CloseHandle 100] ∧
      ∃ e1, (StopEncoder encoderRunning).out = Outcome.ret e1 ∧
        (StopEncoder e1).out = Outcome.ret e1 ∧ (StopEncoder e1).calls = [] :=
  ⟨rfl, (StopEncoder_idempotent encoderRunning).1⟩

/-- C2 at two concrete inputs: every call succeeds and `StartEncoder` returns
`TRUE`; `SetupNvIFR` fails and it returns `FALSE`. -/
theorem StartEncoder_true_iff_witness :
    (∃ e1, (StartEncoder K0 oStart encoderFresh).out = Outcome.ret (e1, true)) ∧
    (∃ e1, (StartEncoder K0 { oStart with SetupNvIFR := false } encoderFresh).out =
      Outcome.ret (e1, false)) := by
  obtain ⟨e1, b, h, hb⟩ := StartEncoder_true_iff K0 oStart encoderFresh
  obtain ⟨e2, b2, h2, hb2⟩ :=
    StartEncoder_true_iff K0 { oStart with SetupNvIFR := false } encoderFresh
  have t : b = true := hb.2 (by decide)
  have f : b2 = false := by
    cases b2
    · rfl
    · exact absurd (hb2.1 rfl).2.2.2.1 (by decide)
  subst t f
  exact ⟨⟨e1, h⟩, ⟨e2, h2⟩⟩

end NvIFREncoder

/-! ## The worker -/

theorem SetupKeeps.refl (i : Fin MAX_PLAYERS) (g : Globals) : SetupKeeps i g g :=
  ⟨rfl, rfl, rfl, fun _ _ => ⟨rfl, rfl, rfl⟩⟩

theorem SetupKeeps.trans {i : Fin MAX_PLAYERS} {g g1 g2 : Globals} (h1 : SetupKeeps i g g1)
    (h2 : SetupKeeps i g1 g2) : SetupKeeps i g g2 := by
  obtain ⟨a1, b1, c1, d1⟩ := h1
  obtain ⟨a2, b2, c2, d2⟩ := h2
  refine ⟨a2.trans a1, b2.trans b1, c2.trans c1, fun j hj => ?_⟩
  obtain ⟨x1, y1, z1⟩ := d1 j hj
  obtain ⟨x2, y2, z2⟩ := d2 j hj
  exact ⟨x2.trans x1, y2.trans y1, z2.trans z1⟩

theorem Run.andThen_out_ret {α : Type} (r : Run (Flow α)) (f : α → Run (Flow α)) (fl : Flow α) :
    (Run.andThen r f).out = Outcome.ret fl ↔
      (∃ a, r.out = Outcome.ret (Flow.done a) ∧ fl = Flow.done a) ∨
      (∃ a, r.out = Outcome.ret (Flow.next a) ∧ (f a).out = Outcome.ret fl) := by
  unfold Run.andThen
  rw [Run.bind_out_ret]
  constructor
  · rintro ⟨a, ha, h⟩
    cases a with
    | next a => exact Or.inr ⟨a, ha, h⟩
    | done a =>
      simp at h
      exact Or.inl ⟨a, ha, h.symm⟩
  · rintro (⟨a, ha, rfl⟩ | ⟨a, ha, h⟩)
    · exact ⟨_, ha, rfl⟩
    · exact ⟨_, ha, h⟩

theorem Run.mem_andThen_calls {α : Type} (r : Run (Flow α)) (f : α → Run (Flow α)) (c : Call) :
    c ∈ (Run.andThen r f).calls ↔
      c ∈ r.calls ∨ ∃ a, r.out = Outcome.ret (Flow.next a) ∧ c ∈ (f a).calls := by
  unfold Run.andThen
  rw [Run.mem_bind_calls]
  constructor
  · rintro (h | ⟨a, ha, h⟩)
    · exact Or.inl h
    · cases a with
      | next a => exact Or.inr ⟨a, ha, h⟩
      | done a => simp at h
  · rintro (h | ⟨a, ha, h⟩)
    · exact Or.inl h
    · exact Or.inr ⟨_, ha, h⟩

theorem Quiet.bind {α β : Type} {r : Run α} {f : α → Run β} (hr : Quiet r.calls)
    (hf : ∀ a, Quiet (f a).calls) : Quiet (r.bind f).calls := by
  intro c hc
  rcases (Run.mem_bind_calls r f c).1 hc with h | ⟨a, -, h⟩
  · exact hr c h
  · exact hf a c h

theorem Quiet.pure {α : Type} (a : α) : Quiet (Run.pure a).calls := by
  intro c hc
  simp at hc

theorem Quiet.exit {α : Type} (n : Int) : Quiet (Run.exit n : Run α).calls := by
  intro c hc
  simp at hc

theorem Quiet.fault {α : Type} : Quiet (Run.fault : Run α).calls := by
  intro c hc
  simp at hc

theorem Quiet.call (c : Call) (h1 : c.isAvioOpen = false) (h2 : c.isCrop = false) :
    Quiet (Run.call c).calls := by
  intro d hd
  simp at hd
  subst hd
  exact ⟨h1, h2⟩

theorem add_stream_quiet (K : Consts) (o : SetupOracle) (w h : Int) (ost : OutputStream)
    (codec_id : Int) : Quiet (add_stream K o w h ost codec_id).calls := by
  unfold add_stream
  repeat' first
    | exact Quiet.pure _
    | exact Quiet.exit _
    | exact Quiet.fault
    | exact Quiet.call _ rfl rfl
    | refine Quiet.bind ?_ (fun _ => ?_)
    | split
    | dsimp only

theorem alloc_picture_quiet (alloc : Option AVFrame) (get_buffer pix_fmt w h : Int) :
    Quiet (alloc_picture alloc get_buffer pix_fmt w h).calls := by
  unfold alloc_picture
  repeat' first
    | exact Quiet.pure _
    | exact Quiet.exit _
    | exact Quiet.fault
    | exact Quiet.call _ rfl rfl
    | refine Quiet.bind ?_ (fun _ => ?_)
    | split

theorem open_video_quiet (K : Consts) (o : SetupOracle) (ost : OutputStream) :
    Quiet (open_video K o ost).calls := by
  unfold open_video
  repeat' first
    | exact Quiet.pure _
    | exact Quiet.exit _
    | exact Quiet.fault
    | exact Quiet.call _ rfl rfl
    | exact alloc_picture_quiet _ _ _ _ _
    | refine Quiet.bind ?_ (fun _ => ?_)
    | split
    | dsimp only

namespace NvIFREncoder

theorem tileOrigin_quiet (i : Fin MAX_PLAYERS) (g : Globals) :
    Quiet (FFMPEGThreadProc_tileOrigin i g).calls := by
  unfold FFMPEGThreadProc_tileOrigin cMod checkInt
  repeat' first
    | exact Quiet.pure _
    | exact Quiet.exit _
    | exact Quiet.fault
    | exact Quiet.call _ rfl rfl
    | refine Quiet.bind ?_ (fun _ => ?_)
    | split

theorem context_quiet (o : SetupOracle) (i : Fin MAX_PLAYERS) (g : Globals) :
    Quiet (FFMPEGThreadProc_context o i g).calls := by
  unfold FFMPEGThreadProc_context
  repeat' first
    | exact Quiet.pure _
    | exact Quiet.exit _
    | exact Quiet.fault
    | exact Quiet.call _ rfl rfl
    | refine Quiet.bind ?_ (fun _ => ?_)
    | split

theorem stream_quiet (K : Consts) (o : SetupOracle) (i : Fin MAX_PLAYERS) (g : Globals) :
    Quiet (FFMPEGThreadProc_stream K o i g).calls := by
  unfold FFMPEGThreadProc_stream
  repeat' first
    | exact Quiet.pure _
    | exact Quiet.exit _
    | exact Quiet.fault
    | exact Quiet.call _ rfl rfl
    | exact add_stream_quiet _ _ _ _ _ _
    | exact open_video_quiet _ _ _
    | refine Quiet.bind ?_ (fun _ => ?_)
    | split
    | dsimp only


theorem checkInt_port (i : Fin MAX_PLAYERS) :
    checkInt (30000 + (i.val : Int)) = Run.pure (30000 + (i.val : Int)) := by
  have h := i.isLt
  unfold MAX_PLAYERS at h
  unfold checkInt INT_MIN INT_MAX
  rw [if_pos]
  constructor <;> omega

theorem context_ret (o : SetupOracle) (i : Fin MAX_PLAYERS) (g : Globals) (fl : Flow Globals)
    (h : (FFMPEGThreadProc_context o i g).out = Outcome.ret fl) :
    SetupKeeps i g fl.val ∧ fl.val.serverOpened i = g.serverOpened i ∧
      (fl.isNext = true →
        (o.alloc_output_context2_first ≠ 0 ∨ o.alloc_output_context2_second ≠ 0)) := by
  by_cases h1 : o.alloc_output_context2_first = 0 <;>
    by_cases h2 : o.alloc_output_context2_second = 0 <;>
    simp [FFMPEGThreadProc_context, Run.bind, Run.pure, Run.call, h1, h2] at h <;>
    subst h <;>
    simp_all [SetupKeeps, Flow.val, Flow.isNext, Function.update_noteq]

theorem stream_ret (K : Consts) (o : SetupOracle) (i : Fin MAX_PLAYERS) (g : Globals)
    (fl : Flow Globals) (h : (FFMPEGThreadProc_stream K o i g).out = Outcome.ret fl) :
    SetupKeeps i g fl.val ∧ fl.val.serverOpened i = g.serverOpened i ∧
      (fl.isNext = true → 0 ≤ o.av_dict_set_re) := by
  unfold FFMPEGThreadProc_stream at h
  simp only [Function.update_same] at h
  by_cases h0 : o.oformat = 0
  · simp [h0] at h
  simp only [h0, if_false] at h
  rw [Run.bind_out_ret] at h
  obtain ⟨r, hr, h⟩ := h
  have hr1 : SetupKeeps i g r.1 ∧ r.1.serverOpened i = g.serverOpened i := by
    by_cases h1 : o.video_codec = K.AV_CODEC_ID_NONE
    · simp [h1] at hr
      subst hr
      simp_all [SetupKeeps, Function.update_noteq]
    · simp only [ne_eq, h1, not_false_eq_true, if_true] at hr
      rw [Run.bind_out_ret] at hr
      obtain ⟨a, -, hr⟩ := hr
      simp at hr
      subst hr
      simp_all [SetupKeeps, Function.update_noteq]
  obtain ⟨⟨a, b, c, d⟩, e⟩ := hr1
  simp only [Run.call_bind] at h
  by_cases h2 : o.av_dict_set_re < 0
  · simp [h2] at h
    subst h
    exact ⟨⟨a, b, c, d⟩, e, by simp [Flow.isNext]⟩
  · simp only [h2, if_false] at h
    cases hvc : r.2 with
    | none => simp [hvc] at h
    | some vc =>
      simp only [hvc] at h
      rw [Run.bind_out_ret] at h
      obtain ⟨ost, -, h⟩ := h
      simp at h
      subst h
      exact ⟨⟨a, b, c, d⟩, e, fun _ => not_lt.mp h2⟩

theorem listen_ret (o : SetupOracle) (i : Fin MAX_PLAYERS) (g : Globals)
    (fl : Flow Globals) (h : (FFMPEGThreadProc_listen o i g).out = Outcome.ret fl) :
    SetupKeeps i g fl.val ∧
      (fl.isNext = true → fl.val.serverOpened i = true ∧
        0 ≤ o.av_dict_set_listen ∧ 0 ≤ o.av_dict_set_an ∧ 0 ≤ o.avio_open2 ∧
          0 ≤ o.avformat_write_header) ∧
      (fl.isNext = false → fl.val.serverOpened i = g.serverOpened i) := by
  unfold FFMPEGThreadProc_listen at h
  simp only [checkInt_port] at h
  by_cases h1 : o.av_dict_set_listen < 0 <;> by_cases h2 : o.av_dict_set_an < 0 <;>
    by_cases h3 : o.avio_open2 < 0 <;> by_cases h4 : o.avformat_write_header < 0 <;>
    simp [Run.bind, Run.pure, Run.call, h1, h2, h3, h4] at h <;>
    subst h <;>
    simp_all [SetupKeeps, Flow.val, Flow.isNext, Function.update_noteq]

end NvIFREncoder

theorem avioOpenedCount_append (k : Int) (l1 l2 : List Call) :
    NvIFREncoder.avioOpenedCount k (l1 ++ l2) =
      NvIFREncoder.avioOpenedCount k l1 + NvIFREncoder.avioOpenedCount k l2 := by
  unfold NvIFREncoder.avioOpenedCount
  exact List.countP_append _ _ _

theorem avioOpenedCount_quiet (k : Int) (l : List Call) (h : Quiet l) :
    NvIFREncoder.avioOpenedCount k l = 0 := by
  unfold NvIFREncoder.avioOpenedCount
  rw [List.countP_eq_zero]
  intro c hc
  have := (h c hc).1
  cases c <;> simp_all [Call.isAvioOpen]

theorem Run.andThen_calls_next {α : Type} (r : Run (Flow α)) (f : α → Run (Flow α)) (a : α)
    (h : r.out = Outcome.ret (Flow.next a)) : (Run.andThen r f).calls = r.calls ++ (f a).calls := by
  unfold Run.andThen
  rw [Run.bind_calls_of_ret r _ _ h]

theorem Run.andThen_calls_not_next {α : Type} (r : Run (Flow α)) (f : α → Run (Flow α))
    (h : ∀ a, r.out ≠ Outcome.ret (Flow.next a)) : (Run.andThen r f).calls = r.calls := by
  unfold Run.andThen Run.bind
  cases hr : r.out with
  | ret fl =>
    cases fl with
    | next a => exact absurd hr (h a)
    | done a => simp
  | exit n => simp
  | fault => simp

theorem Run.andThen_out_next {α : Type} (r : Run (Flow α)) (f : α → Run (Flow α)) (a : α)
    (h : r.out = Outcome.ret (Flow.next a)) : (Run.andThen r f).out = (f a).out := by
  unfold Run.andThen Run.bind
  simp [h]

namespace NvIFREncoder

theorem tileOrigin_ret (i : Fin MAX_PLAYERS) (g g1 : Globals)
    (h : (FFMPEGThreadProc_tileOrigin i g).out = Outcome.ret g1) :
    g1 = { g with
      topRightX := Function.update g.topRightX i (Int.tmod (i.val : Int) g.cols * g.splitWidth),
      topRightY := Function.update g.topRightY i ((i.val : Int) / 4 * g.splitHeight) } := by
  have hi := i.isLt
  unfold MAX_PLAYERS at hi
  unfold FFMPEGThreadProc_tileOrigin cMod checkInt at h
  by_cases c1 : g.cols = 0 ∨ ((i.val : Int) = INT_MIN ∧ g.cols = -1)
  · simp [c1] at h
  by_cases c2 : INT_MIN ≤ Int.tmod (i.val : Int) g.cols * g.splitWidth ∧
      Int.tmod (i.val : Int) g.cols * g.splitWidth ≤ INT_MAX
  swap
  · simp [c1, c2] at h
  simp only [c1, c2, if_false, if_true, and_self, Run.pure_bind] at h
  by_cases r1 : (i.val : Int) ≤ 3
  · have : (i.val : Int) / 4 = 0 := by omega
    simp [r1] at h
    subst h
    simp [this]
  by_cases r2 : (i.val : Int) ≤ 7
  · have e : (i.val : Int) / 4 = 1 := by omega
    have r3 : 4 ≤ (i.val : Int) := by omega
    simp [r1, r2, r3] at h
    subst h
    simp [e]
  · have e : (i.val : Int) / 4 = 2 := by omega
    have r3 : 8 ≤ (i.val : Int) := by omega
    have r4 : (i.val : Int) ≤ 11 := by omega
    have r5 : ¬ (4 ≤ (i.val : Int) ∧ (i.val : Int) ≤ 7) := by omega
    simp only [r1, and_false, if_false, r5, r3, r4, and_self, if_true] at h
    by_cases c3 : INT_MIN ≤ g.splitHeight * 2 ∧ g.splitHeight * 2 ≤ INT_MAX
    · simp [c3] at h
      subst h
      simp [e, mul_comm]
    · simp [c3] at h

theorem listen_calls (o : SetupOracle) (i : Fin MAX_PLAYERS) (g : Globals) (k : Int) :
    (∀ c ∈ (FFMPEGThreadProc_listen o i g).calls, c.isCrop = false) ∧
    avioOpenedCount k (FFMPEGThreadProc_listen o i g).calls ≤ 1 ∧
    (avioOpenedCount k (FFMPEGThreadProc_listen o i g).calls = 1 →
      k = (i.val : Int) ∧ 0 ≤ o.avio_open2 ∧
        (0 ≤ o.avformat_write_header →
          ∃ g1, (FFMPEGThreadProc_listen o i g).out = Outcome.ret (Flow.next g1))) := by
  unfold FFMPEGThreadProc_listen
  simp only [checkInt_port]
  by_cases h1 : o.av_dict_set_listen < 0 <;> by_cases h2 : o.av_dict_set_an < 0 <;>
    by_cases h3 : o.avio_open2 < 0 <;> by_cases h4 : o.avformat_write_header < 0 <;>
    simp [Run.bind, Run.pure, Run.call, h1, h2, h3, h4, avioOpenedCount, Call.isCrop,
      List.countP_cons] <;>
    (try split_ifs) <;> simp_all

theorem frame_ret (K : Consts) (o : FrameOracle) (i : Fin MAX_PLAYERS) (g g1 : Globals)
    (h : (FFMPEGThreadProc_frame K o i g).out = Outcome.ret g1) :
    ∃ ost, g1 = { g with
      video_st := Function.update g.video_st i ost,
      numThreads := Function.update g.numThreads i (g.numThreads i - 1) } := by
  unfold FFMPEGThreadProc_frame checkInt at h
  rw [Run.bind_out_ret] at h
  obtain ⟨r, -, h⟩ := h
  refine ⟨r.1, ?_⟩
  simp only at h
  split_ifs at h <;> simp at h
  exact h.symm

theorem frame_calls (K : Consts) (o : FrameOracle) (i : Fin MAX_PLAYERS) (g : Globals)
    (c : Call) (h : c ∈ (FFMPEGThreadProc_frame K o i g).calls) :
    c.isSetup = false ∧ c.isAvioOpen = false ∧
      (c.isCrop = true → c = Call.av_picture_crop (g.topRightY i) (g.topRightX i)) := by
  unfold FFMPEGThreadProc_frame checkInt at h
  rw [Run.mem_bind_calls] at h
  rcases h with h | ⟨r, -, h⟩
  · rcases write_video_frame_calls _ _ _ _ _ _ _ _ _ h with h | h | ⟨-, -, h | h⟩
    · rcases get_video_frame_calls _ _ _ _ _ _ _ _ h with h | h | h | h | h | h <;>
        subst h <;> simp [Call.isSetup, Call.isAvioOpen, Call.isCrop]
    all_goals subst h; simp [Call.isSetup, Call.isAvioOpen, Call.isCrop]
  · simp only at h
    split_ifs at h <;> simp at h


theorem slot?_coe (i : Fin MAX_PLAYERS) : slot? (i.val : Int) = some i := by
  unfold slot?
  have h : 0 ≤ (i.val : Int) ∧ (i.val : Int).toNat < MAX_PLAYERS := ⟨by omega, by simp⟩
  rw [dif_pos h]
  simp

theorem openServer_ret (K : Consts) (o : SetupOracle) (i : Fin MAX_PLAYERS) (g : Globals)
    (fl : Flow Globals) (h : (FFMPEGThreadProc_openServer K o i g).out = Outcome.ret fl) :
    SetupKeeps i g fl.val ∧
      (fl.isNext = true → fl.val.serverOpened i = true ∧
        (o.alloc_output_context2_first ≠ 0 ∨ o.alloc_output_context2_second ≠ 0) ∧
        0 ≤ o.av_dict_set_re ∧ 0 ≤ o.av_dict_set_listen ∧ 0 ≤ o.av_dict_set_an ∧
        0 ≤ o.avio_open2 ∧ 0 ≤ o.avformat_write_header) ∧
      (fl.isNext = false → fl.val.serverOpened i = g.serverOpened i) := by
  unfold FFMPEGThreadProc_openServer at h
  rw [Run.andThen_out_ret] at h
  rcases h with ⟨a, ha, rfl⟩ | ⟨a, ha, h⟩
  · obtain ⟨k1, s1, -⟩ := context_ret o i g _ ha
    exact ⟨k1, by simp [Flow.isNext], fun _ => s1⟩
  obtain ⟨k1, s1, c1⟩ := context_ret o i g _ ha
  rw [Run.andThen_out_ret] at h
  rcases h with ⟨b, hb, rfl⟩ | ⟨b, hb, h⟩
  · obtain ⟨k2, s2, -⟩ := stream_ret K o i a _ hb
    exact ⟨k1.trans k2, by simp [Flow.isNext], fun _ => s2.trans s1⟩
  obtain ⟨k2, s2, c2⟩ := stream_ret K o i a _ hb
  obtain ⟨k3, c3, s3⟩ := listen_ret o i b _ h
  refine ⟨k1.trans (k2.trans k3), fun hn => ?_, fun hn => ?_⟩
  · obtain ⟨x1, x2, x3, x4, x5⟩ := c3 hn
    exact ⟨x1, c1 rfl, c2 rfl, x2, x3, x4, x5⟩
  · exact (s3 hn).trans (s2.trans s1)

theorem openServer_calls (K : Consts) (o : SetupOracle) (i : Fin MAX_PLAYERS) (g : Globals)
    (k : Int) :
    (∀ c ∈ (FFMPEGThreadProc_openServer K o i g).calls, c.isCrop = false) ∧
    avioOpenedCount k (FFMPEGThreadProc_openServer K o i g).calls ≤ 1 ∧
    (avioOpenedCount k (FFMPEGThreadProc_openServer K o i g).calls = 1 →
      k = (i.val : Int) ∧ 0 ≤ o.avio_open2 ∧
        (0 ≤ o.avformat_write_header →
          ∃ g1, (FFMPEGThreadProc_openServer K o i g).out = Outcome.ret (Flow.next g1))) := by
  unfold FFMPEGThreadProc_openServer
  have q1 := context_quiet o i g
  by_cases h1 : ∃ a, (FFMPEGThreadProc_context o i g).out = Outcome.ret (Flow.next a)
  swap
  · rw [Run.andThen_calls_not_next _ _ (fun a ha => h1 ⟨a, ha⟩)]
    rw [avioOpenedCount_quiet k _ q1]
    exact ⟨fun c hc => (q1 c hc).2, by omega, by omega⟩
  obtain ⟨a, ha⟩ := h1
  rw [Run.andThen_calls_next _ _ a ha, Run.andThen_out_next _ _ a ha]
  have q2 := stream_quiet K o i a
  by_cases h2 : ∃ b, (FFMPEGThreadProc_stream K o i a).out = Outcome.ret (Flow.next b)
  swap
  · rw [Run.andThen_calls_not_next _ _ (fun b hb => h2 ⟨b, hb⟩)]
    rw [avioOpenedCount_append, avioOpenedCount_quiet k _ q1, avioOpenedCount_quiet k _ q2]
    refine ⟨fun c hc => ?_, by omega, by omega⟩
    rcases List.mem_append.1 hc with hc | hc
    · exact (q1 c hc).2
    · exact (q2 c hc).2
  obtain ⟨b, hb⟩ := h2
  rw [Run.andThen_calls_next _ _ b hb, Run.andThen_out_next _ _ b hb]
  rw [avioOpenedCount_append, avioOpenedCount_append, avioOpenedCount_quiet k _ q1,
    avioOpenedCount_quiet k _ q2]
  obtain ⟨l1, l2, l3⟩ := listen_calls o i b k
  refine ⟨fun c hc => ?_, by omega, fun hc => l3 (by omega)⟩
  rcases List.mem_append.1 hc with hc | hc
  · exact (q1 c hc).2
  rcases List.mem_append.1 hc with hc | hc
  · exact (q2 c hc).2
  · exact l1 c hc

end NvIFREncoder

theorem Run.bind_cases {α β : Type} (r : Run α) (f : α → Run β) :
    (∃ a, r.out = Outcome.ret a ∧ (r.bind f).calls = r.calls ++ (f a).calls ∧
      (r.bind f).out = (f a).out) ∨
    ((∀ a, r.out ≠ Outcome.ret a) ∧ (r.bind f).calls = r.calls ∧
      ∀ b, (r.bind f).out ≠ Outcome.ret b) := by
  unfold Run.bind
  cases h : r.out with
  | ret a => exact Or.inl ⟨a, rfl, by simp, by simp⟩
  | exit n => exact Or.inr ⟨by simp, by simp, by simp⟩
  | fault => exact Or.inr ⟨by simp, by simp, by simp⟩

namespace NvIFREncoder

theorem FFMPEGThreadProc_coe (K : Consts) (o : ThreadOracle) (i : Fin MAX_PLAYERS)
    (g : Globals) :
    FFMPEGThreadProc K o (i.val : Int) g =
      (FFMPEGThreadProc_setup K o.setup i g).bind (FFMPEGThreadProc_rest K o.frame i) := by
  unfold FFMPEGThreadProc
  simp only [slot?_coe]

theorem FFMPEGThreadProc_opened (K : Consts) (o : ThreadOracle) (i : Fin MAX_PLAYERS)
    (g : Globals) (h : g.serverOpened i = true) :
    FFMPEGThreadProc K o (i.val : Int) g = FFMPEGThreadProc_frame K o.frame i g := by
  rw [FFMPEGThreadProc_coe]
  unfold FFMPEGThreadProc_setup
  simp [h, FFMPEGThreadProc_rest]

theorem setup_ret (K : Consts) (o : SetupOracle) (i : Fin MAX_PLAYERS) (g : Globals)
    (fl : Flow Globals) (hs : g.serverOpened i = false)
    (h : (FFMPEGThreadProc_setup K o i g).out = Outcome.ret fl) :
    fl.val.numThreads = g.numThreads ∧
    fl.val.topRightX = Function.update g.topRightX i
      (Int.tmod (i.val : Int) g.cols * g.splitWidth) ∧
    fl.val.topRightY = Function.update g.topRightY i ((i.val : Int) / 4 * g.splitHeight) ∧
    (∀ j, j ≠ i → fl.val.serverOpened j = g.serverOpened j ∧
      fl.val.outCtxArray j = g.outCtxArray j ∧ fl.val.fmt j = g.fmt j) ∧
    (fl.isNext = true → fl.val.serverOpened i = true ∧
      (o.alloc_output_context2_first ≠ 0 ∨ o.alloc_output_context2_second ≠ 0) ∧
      0 ≤ o.av_dict_set_re ∧ 0 ≤ o.av_dict_set_listen ∧ 0 ≤ o.av_dict_set_an ∧
      0 ≤ o.avio_open2 ∧ 0 ≤ o.avformat_write_header) ∧
    (fl.isNext = false → fl.val.serverOpened i = false) := by
  unfold FFMPEGThreadProc_setup at h
  simp only [hs, if_true] at h
  rw [Run.bind_out_ret] at h
  obtain ⟨g1, h1, h2⟩ := h
  have e := tileOrigin_ret i g g1 h1
  obtain ⟨⟨k1, k2, k3, k4⟩, c, s⟩ := openServer_ret K o i g1 fl h2
  subst e
  exact ⟨k1, k2, k3, k4, c, fun hn => (s hn).trans hs⟩

theorem setup_calls (K : Consts) (o : SetupOracle) (i : Fin MAX_PLAYERS) (g : Globals)
    (k : Int) :
    (∀ c ∈ (FFMPEGThreadProc_setup K o i g).calls, c.isCrop = false) ∧
    avioOpenedCount k (FFMPEGThreadProc_setup K o i g).calls ≤ 1 ∧
    (avioOpenedCount k (FFMPEGThreadProc_setup K o i g).calls = 1 →
      k = (i.val : Int) ∧ g.serverOpened i = false ∧ 0 ≤ o.avio_open2 ∧
        (0 ≤ o.avformat_write_header →
          ∃ g1, (FFMPEGThreadProc_setup K o i g).out = Outcome.ret (Flow.next g1))) := by
  unfold FFMPEGThreadProc_setup
  by_cases hs : g.serverOpened i = false
  swap
  · simp [hs, avioOpenedCount]
  simp only [hs, if_true]
  have q := tileOrigin_quiet i g
  rcases Run.bind_cases (FFMPEGThreadProc_tileOrigin i g)
    (fun g1 => FFMPEGThreadProc_openServer K o i g1) with ⟨g1, -, hc, ho⟩ | ⟨-, hc, -⟩
  · rw [hc, ho, avioOpenedCount_append, avioOpenedCount_quiet k _ q]
    obtain ⟨l1, l2, l3⟩ := openServer_calls K o i g1 k
    refine ⟨fun c hm => ?_, by omega, fun h1 => ?_⟩
    · rcases List.mem_append.1 hm with hm | hm
      · exact (q c hm).2
      · exact l1 c hm
    · obtain ⟨x1, x2, x3⟩ := l3 (by omega)
      exact ⟨x1, trivial, x2, x3⟩
  · rw [hc, avioOpenedCount_quiet k _ q]
    exact ⟨fun c hm => (q c hm).2, by omega, by omega⟩


theorem FFMPEGThreadProc_ret_cases (K : Consts) (o : ThreadOracle) (i : Fin MAX_PLAYERS)
    (g g1 : Globals) (h : (FFMPEGThreadProc K o (i.val : Int) g).out = Outcome.ret g1) :
    ∃ fl, (FFMPEGThreadProc_setup K o.setup i g).out = Outcome.ret fl ∧
      ((fl = Flow.done g1) ∨
        (∃ g2, fl = Flow.next g2 ∧ (FFMPEGThreadProc_frame K o.frame i g2).out = Outcome.ret g1)) := by
  rw [FFMPEGThreadProc_coe, Run.bind_out_ret] at h
  obtain ⟨fl, hfl, h⟩ := h
  refine ⟨fl, hfl, ?_⟩
  cases fl with
  | done a =>
    simp [FFMPEGThreadProc_rest] at h
    exact Or.inl (by rw [h])
  | next a => exact Or.inr ⟨a, rfl, h⟩

theorem FFMPEGThreadProc_mem_calls (K : Consts) (o : ThreadOracle) (i : Fin MAX_PLAYERS)
    (g : Globals) (c : Call) (h : c ∈ (FFMPEGThreadProc K o (i.val : Int) g).calls) :
    c ∈ (FFMPEGThreadProc_setup K o.setup i g).calls ∨
      ∃ g2, (FFMPEGThreadProc_setup K o.setup i g).out = Outcome.ret (Flow.next g2) ∧
        c ∈ (FFMPEGThreadProc_frame K o.frame i g2).calls := by
  rw [FFMPEGThreadProc_coe, Run.mem_bind_calls] at h
  rcases h with h | ⟨fl, hfl, h⟩
  · exact Or.inl h
  · cases fl with
    | done a => simp [FFMPEGThreadProc_rest] at h
    | next a => exact Or.inr ⟨a, hfl, h⟩

/-- What one `FFMPEGThreadProc(i)` that returns does to the globals, from a
state in which the server of the slot is not open. -/
theorem FFMPEGThreadProc_first (K : Consts) (o : ThreadOracle) (i : Fin MAX_PLAYERS)
    (g g1 : Globals) (hs : g.serverOpened i = false)
    (h : (FFMPEGThreadProc K o (i.val : Int) g).out = Outcome.ret g1) :
    g1.topRightX = Function.update g.topRightX i
      (Int.tmod (i.val : Int) g.cols * g.splitWidth) ∧
    g1.topRightY = Function.update g.topRightY i ((i.val : Int) / 4 * g.splitHeight) ∧
    (∀ j, j ≠ i → g1.serverOpened j = g.serverOpened j ∧
      g1.outCtxArray j = g.outCtxArray j ∧ g1.fmt j = g.fmt j) ∧
    (g1.serverOpened i = true →
      g1.numThreads = Function.update g.numThreads i (g.numThreads i - 1) ∧
      (o.setup.alloc_output_context2_first ≠ 0 ∨ o.setup.alloc_output_context2_second ≠ 0) ∧
      0 ≤ o.setup.av_dict_set_re ∧ 0 ≤ o.setup.av_dict_set_listen ∧
      0 ≤ o.setup.av_dict_set_an ∧ 0 ≤ o.setup.avio_open2 ∧
      0 ≤ o.setup.avformat_write_header) ∧
    (g1.serverOpened i = false → g1.numThreads = g.numThreads) := by
  obtain ⟨fl, hfl, hc⟩ := FFMPEGThreadProc_ret_cases K o i g g1 h
  obtain ⟨k1, k2, k3, k4, c, s⟩ := setup_ret K o.setup i g fl hs hfl
  rcases hc with rfl | ⟨g2, rfl, hf⟩
  · have s1 := s rfl
    simp only [Flow.val] at k1 k2 k3 k4 s1
    refine ⟨k2, k3, k4, fun ht => ?_, fun _ => k1⟩
    rw [s1] at ht
    exact absurd ht (by simp)
  · obtain ⟨ost, rfl⟩ := frame_ret K o.frame i g2 g1 hf
    have c1 := c rfl
    simp only [Flow.val] at k1 k2 k3 k4 c1
    refine ⟨k2, k3, k4, fun _ => ⟨?_, c1.2⟩, fun hf => ?_⟩
    · simp only [k1]
    · simp only at hf
      rw [c1.1] at hf
      exact absurd hf (by simp)

/-- What one `FFMPEGThreadProc(i)` that returns does to the globals, from a
state in which the server of the slot is open. -/
theorem FFMPEGThreadProc_later (K : Consts) (o : ThreadOracle) (i : Fin MAX_PLAYERS)
    (g g1 : Globals) (hs : g.serverOpened i = true)
    (h : (FFMPEGThreadProc K o (i.val : Int) g).out = Outcome.ret g1) :
    g1.serverOpened = g.serverOpened ∧ g1.topRightX = g.topRightX ∧
    g1.topRightY = g.topRightY ∧ g1.outCtxArray = g.outCtxArray ∧ g1.fmt = g.fmt ∧
    g1.numThreads = Function.update g.numThreads i (g.numThreads i - 1) := by
  rw [FFMPEGThreadProc_opened K o i g hs] at h
  obtain ⟨ost, rfl⟩ := frame_ret K o.frame i g g1 h
  exact ⟨rfl, rfl, rfl, rfl, rfl, rfl⟩

end NvIFREncoder

namespace NvIFREncoder

/-- C8.  For a slot `i` and `cols > 0`: a first `FFMPEGThreadProc(i)` (the
server of the slot is not open) that returns leaves
`topRightX[i] = (i mod cols) * splitWidth` and
`topRightY[i] = (i div 4) * splitHeight`, and every `av_picture_crop` it makes
has top band `(i div 4) * splitHeight` and left band `(i mod cols) * splitWidth`;
a later one leaves the tile origin as it is and every `av_picture_crop` it
makes has top band `topRightY[i]` and left band `topRightX[i]`. -/
theorem FFMPEGThreadProc_tile (K : Consts) (o : ThreadOracle) (i : Fin MAX_PLAYERS)
    (g : Globals) (hcols : 0 < g.cols) :
    (g.serverOpened i = false →
      (∀ g1, (FFMPEGThreadProc K o (i.val : Int) g).out = Outcome.ret g1 →
        g1.topRightX i = (i.val : Int) % g.cols * g.splitWidth ∧
        g1.topRightY i = (i.val : Int) / 4 * g.splitHeight) ∧
      (∀ top_band left_band,
        Call.av_picture_crop top_band left_band ∈ (FFMPEGThreadProc K o (i.val : Int) g).calls →
          top_band = (i.val : Int) / 4 * g.splitHeight ∧
          left_band = (i.val : Int) % g.cols * g.splitWidth)) ∧
    (g.serverOpened i = true →
      (∀ g1, (FFMPEGThreadProc K o (i.val : Int) g).out = Outcome.ret g1 →
        g1.topRightX i = g.topRightX i ∧ g1.topRightY i = g.topRightY i) ∧
      (∀ top_band left_band,
        Call.av_picture_crop top_band left_band ∈ (FFMPEGThreadProc K o (i.val : Int) g).calls →
          top_band = g.topRightY i ∧ left_band = g.topRightX i)) := by
  have hmod : Int.tmod (i.val : Int) g.cols = (i.val : Int) % g.cols :=
    Int.tmod_eq_emod (by omega) (by omega)
  constructor
  · intro hs
    constructor
    · intro g1 h
      obtain ⟨e1, e2, -⟩ := FFMPEGThreadProc_first K o i g g1 hs h
      rw [e1, e2, hmod]
      simp
    · intro top_band left_band hc
      rcases FFMPEGThreadProc_mem_calls K o i g _ hc with hc | ⟨g2, hg2, hc⟩
      · have := (setup_calls K o.setup i g 0).1 _ hc
        simp [Call.isCrop] at this
      · obtain ⟨-, k2, k3, -⟩ := setup_ret K o.setup i g _ hs hg2
        have := (frame_calls K o.frame i g2 _ hc).2.2 rfl
        simp only [Flow.val] at k2 k3
        rw [k2, k3, hmod] at this
        simpa using this
  · intro hs
    constructor
    · intro g1 h
      obtain ⟨-, e2, e3, -⟩ := FFMPEGThreadProc_later K o i g g1 hs h
      rw [e2, e3]
      exact ⟨rfl, rfl⟩
    · intro top_band left_band hc
      rw [FFMPEGThreadProc_opened K o i g hs] at hc
      have := (frame_calls K o.frame i g _ hc).2.2 rfl
      simpa using this

/-- C8 at a concrete input: slot 5 of a 4x3 grid of 640x360 tiles has its
origin at `(640, 360)`, and the picture is cropped with top band 360 and left
band 640. -/
theorem FFMPEGThreadProc_tile_witness :
    (∃ g1, (FFMPEGThreadProc K0 oThreadOk 5 (Sys.initial appParam12).g).out = Outcome.ret g1 ∧
      g1.topRightX 5 = 640 ∧ g1.topRightY 5 = 360) ∧
    Call.av_picture_crop 360 640 ∈
      (FFMPEGThreadProc K0 oThreadOk 5 (Sys.initial appParam12).g).calls ∧
    ∀ top_band left_band, Call.av_picture_crop top_band left_band ∈
      (FFMPEGThreadProc K0 oThreadOk 5 (Sys.initial appParam12).g).calls →
        top_band = 360 ∧ left_band = 640 :=
  have h := (FFMPEGThreadProc_tile K0 oThreadOk 5 (Sys.initial appParam12).g (by decide)).1 rfl
  ⟨⟨_, rfl, h.1 _ rfl⟩, by decide, h.2⟩

/-- X2.  A `FFMPEGThreadProc(i)` that returns after encoding a frame (the
server of the slot was open, or the set-up block opened it) leaves
`numThreads[i]` one less than it was and the counters of the other slots as
they were. -/
theorem FFMPEGThreadProc_decrements (K : Consts) (o : ThreadOracle) (i : Fin MAX_PLAYERS)
    (g g1 : Globals) (h : (FFMPEGThreadProc K o (i.val : Int) g).out = Outcome.ret g1)
    (hs : g1.serverOpened i = true) :
    g1.numThreads i = g.numThreads i - 1 ∧ ∀ j, j ≠ i → g1.numThreads j = g.numThreads j := by
  have e : g1.numThreads = Function.update g.numThreads i (g.numThreads i - 1) := by
    by_cases h0 : g.serverOpened i = true
    · exact (FFMPEGThreadProc_later K o i g g1 h0 h).2.2.2.2.2
    · exact ((FFMPEGThreadProc_first K o i g g1 (by simpa using h0) h).2.2.2.1 hs).1
  rw [e]
  exact ⟨by simp, fun j hj => by simp [Function.update_noteq hj]⟩

/-- X2 at a concrete input: slot 3 has been launched and its worker encodes a
frame; `numThreads[3]` goes from 1 back to 0. -/
theorem FFMPEGThreadProc_decrements_witness :
    gLaunched3.numThreads 3 = 1 ∧
      ∃ g2, (FFMPEGThreadProc K0 oThreadOk 3 gLaunched3).out = Outcome.ret g2 ∧
        g2.numThreads 3 = 0 ∧ g2.numThreads 3 = gLaunched3.numThreads 3 - 1 :=
  ⟨rfl, _, rfl, rfl, (FFMPEGThreadProc_decrements K0 oThreadOk 3 gLaunched3 _ rfl rfl).1⟩

/-- C10 fails on the code: slot 0 is launched (`numThreads[0]` becomes 1), its
worker fails to open the server and returns, and `numThreads[0]` is still 1;
the next launch statement of slot 0 starts no thread. -/
theorem FFMPEGThreadProc_failure_keeps_count :
    ∃ s1 g2,
      (EncoderThreadProc_launch 12 0 7 (Sys.initial appParam12)).out = Outcome.ret s1 ∧
      s1.g.numThreads 0 = 1 ∧
      (FFMPEGThreadProc K0 oAvioFails 0 s1.g).out = Outcome.ret g2 ∧
      g2.numThreads 0 = 1 ∧
      (EncoderThreadProc_launch 12 0 8 { g := g2, running := fun _ => 0 }).calls = [] :=
  ⟨_, _, rfl, rfl, rfl, rfl, rfl⟩


theorem launch_ret (numPlayers : Int) (k : Nat) (handle : Int) (s s1 : Sys)
    (h : (EncoderThreadProc_launch numPlayers k handle s).out = Outcome.ret s1) :
    s1 = s ∨ ∃ i, s.g.numThreads i < 1 ∧
      s1.g.numThreads = Function.update s.g.numThreads i (s.g.numThreads i + 1) ∧
      (s1.running = s.running ∨
        s1.running = Function.update s.running i (s.running i + 1)) := by
  unfold EncoderThreadProc_launch checkInt at h
  by_cases h1 : numPlayers > (k : Int)
  swap
  · simp [h1] at h
    exact Or.inl h.symm
  simp only [h1, if_true] at h
  cases hk : slot? (k : Int) with
  | none => simp [hk] at h
  | some i =>
    simp only [hk] at h
    by_cases h2 : s.g.numThreads i < 1
    swap
    · simp [h2] at h
      exact Or.inl h.symm
    simp only [h2, if_true, Run.call_bind] at h
    by_cases h3 : INT_MIN ≤ s.g.numThreads i + 1 ∧ s.g.numThreads i + 1 ≤ INT_MAX
    swap
    · simp [h3] at h
    simp only [h3, and_self, if_true, Run.pure_bind, Run.pure_out] at h
    simp at h
    subst h
    refine Or.inr ⟨i, h2, rfl, ?_⟩
    by_cases h4 : handle = -1
    · exact Or.inl (by simp [h4])
    · exact Or.inr (by simp [h4])

theorem FFMPEGThreadProc_numThreads (K : Consts) (o : ThreadOracle) (i : Fin MAX_PLAYERS)
    (g g1 : Globals) (h : (FFMPEGThreadProc K o (i.val : Int) g).out = Outcome.ret g1) :
    g1.numThreads = g.numThreads ∨
      g1.numThreads = Function.update g.numThreads i (g.numThreads i - 1) := by
  by_cases hs : g.serverOpened i = true
  · exact Or.inr (FFMPEGThreadProc_later K o i g g1 hs h).2.2.2.2.2
  · have hs2 : g.serverOpened i = false := by simpa using hs
    obtain ⟨-, -, -, e4, e5⟩ := FFMPEGThreadProc_first K o i g g1 hs2 h
    by_cases ht : g1.serverOpened i = true
    · exact Or.inr (e4 ht).1
    · exact Or.inl (e5 (by simpa using ht))

theorem Inv_initial (p : AppParam) : (Sys.initial p).Inv := by
  intro i
  simp [Sys.initial, EncoderThreadProc_geometry, Globals.initial]

theorem Inv_step (K : Consts) (numPlayers : Int) (s s1 : Sys) (hinv : s.Inv)
    (h : Step K numPlayers s s1) : s1.Inv := by
  cases h with
  | launch k handle _ _ hk hl =>
    rcases launch_ret numPlayers k handle s s1 hl with rfl | ⟨i, hlt, hn, hr⟩
    · exact hinv
    · intro j
      obtain ⟨a, b⟩ := hinv j
      rw [hn]
      by_cases hj : j = i
      · subst hj
        rw [Function.update_same]
        rcases hr with hr | hr
        · rw [hr]
          constructor <;> omega
        · rw [hr, Function.update_same]
          push_cast
          constructor <;> omega
      · rw [Function.update_noteq hj]
        rcases hr with hr | hr
        · rw [hr]
          exact ⟨a, b⟩
        · rw [hr, Function.update_noteq hj]
          exact ⟨a, b⟩
  | worker i o _ g1 hrun hw =>
    intro j
    obtain ⟨a, b⟩ := hinv j
    simp only
    by_cases hj : j = i
    · subst hj
      rw [Function.update_same]
      rcases FFMPEGThreadProc_numThreads K o j s.g g1 hw with hn | hn
      · rw [hn]
        constructor <;> omega
      · rw [hn, Function.update_same]
        constructor <;> omega
    · rw [Function.update_noteq hj]
      rcases FFMPEGThreadProc_numThreads K o i s.g g1 hw with hn | hn
      · rw [hn]
        exact ⟨a, b⟩
      · rw [hn, Function.update_noteq hj]
        exact ⟨a, b⟩

theorem Inv_reachable (K : Consts) (p : AppParam) (s : Sys) (h : Reachable K p s) : s.Inv := by
  induction h with
  | init => exact Inv_initial p
  | step s s1 _ hs ih => exact Inv_step K p.numPlayers s s1 ih hs

/-- C1.  In every state the system reaches from the initial one, for every
slot `i`, `0 ≤ numThreads[i] ≤ 1` and at most one worker of the slot is in
flight. -/
theorem Reachable_numThreads (K : Consts) (p : AppParam) (s : Sys) (h : Reachable K p s)
    (i : Fin MAX_PLAYERS) :
    0 ≤ s.g.numThreads i ∧ s.g.numThreads i ≤ 1 ∧ s.running i ≤ 1 := by
  obtain ⟨a, b⟩ := Inv_reachable K p s h i
  refine ⟨?_, b, ?_⟩ <;> omega

/-- C1 at a concrete state: slot 0 was launched, slot 3 was launched and its
worker has ended after one frame, slot 3 was launched again. -/
theorem Reachable_numThreads_witness :
    ∃ s, Reachable K0 appParam12 s ∧ s.g.numThreads 0 = 1 ∧ s.running 0 = 1 ∧
      s.g.numThreads 3 = 1 ∧ s.running 3 = 1 ∧ s.g.serverOpened 3 = true ∧
      (0 ≤ s.g.numThreads 3 ∧ s.g.numThreads 3 ≤ 1 ∧ s.running 3 ≤ 1) :=
  have h : Reachable K0 appParam12 _ :=
    Reachable.step _ _
      (Reachable.step _ _
        (Reachable.step _ _
          (Reachable.step _ _ Reachable.init
            (Step.launch 0 7 _ _ (by decide) rfl))
          (Step.launch 3 8 _ _ (by decide) rfl))
        (Step.worker 3 oThreadOk _ _ (by decide) rfl))
      (Step.launch 3 9 _ _ (by decide) rfl)
  ⟨_, h, rfl, rfl, rfl, rfl, rfl, Reachable_numThreads K0 appParam12 _ h 3⟩

/-- C7 fails on the code: with 13 players the tear-down loop of
`EncoderThreadProc` tears down the slots 0 to 11 and then indexes the arrays
at 12, outside them; with 12 players it returns.  The launch statements stay
inside the arrays with 13 players. -/
theorem EncoderThreadProc_teardown_out_of_bounds :
    (EncoderThreadProc_teardown (fun _ => false) 13 gAllOpen).out = Outcome.fault ∧
    (EncoderThreadProc_teardown (fun _ => false) 13 gAllOpen).calls.length = 36 ∧
    slot? 12 = none ∧
    (∃ g1, (EncoderThreadProc_teardown (fun _ => false) 12 gAllOpen).out = Outcome.ret g1) ∧
    (∃ s1, (EncoderThreadProc_launchAll 13 (fun _ => 7) (Sys.initial appParam12)).out =
      Outcome.ret s1) :=
  ⟨rfl, by decide, by decide, ⟨_, rfl⟩, ⟨_, rfl⟩⟩

end NvIFREncoder

end CloudyNvCapture
